import Mathlib

/-!
The aaechain full-node service (package `aae`, `backend.go`).

A shallow embedding of the service object of `backend.go`, of its
constructor `New` with `CreateDB`, `CreateConsensusEngine` and
`makeExtraData`, of the methods `aaeerbase`, `Setaaeerbase`,
`StartMining`, `IsMining`, `Start` and `Stop`, and of the block lookups by
number of the two backends in `api_backend.go`.

* The service is a record; a method is a function from the record (and its
  arguments) to the new record, the calls it made into collaborators, and
  its Go results.
* A collaborator whose code lives in another package (account manager,
  miner, sync manager, light server, clique engine, logger) is not
  re-implemented: each call into it is recorded, in program order, as an
  `Event`. Three calls of the teardown do not always return, and `Stop`
  depends on it: the cancel function of the migration pass, the close of the
  bloom indexer, and the stop of the sync manager have their endings given
  by `cancelUpgradeEnd`, `indexerCloseEnd` and `protocolManagerStopEnd`.
* A Go `error` is `Option String`: `none` is `nil`, `some m` is an error
  whose `Error()` text is `m`.
* Go `int` is taken at 64 bits: values are `Int`, and the one subtraction
  the code performs is wrapped by `wrapInt64`.
* The read/write lock around the etherbase field is not modelled: methods
  run one at a time.
* Pointers handed to the embedded functions are taken to be non-nil; a
  `*big.Int` that may be nil is an `Option Int`.
-/

namespace Aae

/-- Type `common.Address`, a 20-byte array, read as a number below `2^160`.
The zero value `common.Address{}` is `0`. -/
abbrev Address := Fin (2 ^ 160)

/-- Type `accounts.Account`: an address and an optional locator. -/
structure Account where
  Address : Address
  URL : String
  deriving DecidableEq, Repr

/-- Type `accounts.Wallet`, seen through the two things `backend.go` uses:
the account list returned by `Accounts()` and the wallet itself, whose
`SignHash` method is handed to the clique engine. -/
structure Wallet where
  URL : String
  Accounts : List Account
  deriving DecidableEq, Repr

/-- Type `accounts.Manager`, seen through `Wallets()` and `Find`. `Find` is
code of another package, so it is a field here: a possibly nil wallet
together with a possibly nil error. -/
structure Manager where
  Wallets : List Wallet
  Find : Account → Option Wallet × Option String

/-- Type `p2p.Server`, seen through its peer limit. -/
structure Server where
  Name : String
  MaxPeers : Int
  deriving DecidableEq, Repr

/-- Type `common.Hash`, a 32-byte array, read as a number below `2^256`. -/
abbrev Hash := Fin (2 ^ 256)

/-- A byte string (`[]byte`); the nil slice and the empty slice are both `[]`. -/
abbrev Bytes := List (Fin 256)

/-- Type `aaedb.Database`, seen through the name it was opened under and
through whether its dynamic type is `*aaedb.LDBDatabase`. -/
structure Database where
  Name : String
  isLDB : Bool
  deriving DecidableEq, Repr

/-- Type `params.CliqueConfig`: the proof-of-authority signer schedule. -/
structure CliqueConfig where
  Period : Nat
  Epoch : Nat
  deriving DecidableEq, Repr

/-- Type `params.ChainConfig`, seen through the chain id and the `Clique`
pointer (`none` is nil). -/
structure ChainConfig where
  ChainId : Nat
  Clique : Option CliqueConfig
  deriving DecidableEq, Repr

/-- Type `ethash.Mode`, an unsigned integer. -/
abbrev Mode := Nat

/-- Constant `ethash.ModeNormal`. The mode constants are declared in package
`ethash`, in this order from zero. -/
def ModeNormal : Mode := 0

/-- Constant `ethash.ModeShared`. -/
def ModeShared : Mode := 1

/-- Constant `ethash.ModeTest`. -/
def ModeTest : Mode := 2

/-- Constant `ethash.ModeFake`. -/
def ModeFake : Mode := 3

/-- Constant `ethash.ModeFullFake`. -/
def ModeFullFake : Mode := 4

/-- Type `ethash.Config`. -/
structure EthashConfig where
  CacheDir : String
  CachesInMem : Int
  CachesOnDisk : Int
  DatasetDir : String
  DatasetsInMem : Int
  DatasetsOnDisk : Int
  PowMode : Mode
  deriving DecidableEq, Repr

/-- A value of the interface `consensus.Engine`, named by the call that
built it: `clique.New(config, db)`, `ethash.NewFaker()`, `ethash.NewTester()`,
`ethash.NewShared()`, or `ethash.New(config)` with its mining thread count. -/
inductive ConsensusEngine where
  | clique (config : CliqueConfig) (db : Database)
  | ethashFaker
  | ethashTester
  | ethashShared
  | ethash (config : EthashConfig) (threads : Int)
  deriving DecidableEq, Repr

/-- Type `downloader.SyncMode`, an integer. -/
abbrev SyncMode := Int

/-- Constant `downloader.FullSync`. The sync modes are declared in package
`downloader`, in this order from zero. -/
def FullSync : SyncMode := 0

/-- Constant `downloader.FastSync`. -/
def FastSync : SyncMode := 1

/-- Constant `downloader.LightSync`. -/
def LightSync : SyncMode := 2

/-- Modelled from the spec: method `SyncMode.IsValid` is declared in package
`downloader`, outside these sources; the spec gives the recognised modes as
the enumeration Full, Fast, Light. -/
def SyncMode.IsValid (mode : SyncMode) : Bool :=
  decide (FullSync ≤ mode ∧ mode ≤ LightSync)

/-- Type `core.TxPoolConfig`, seen through the journal path and the minimum
gas price the pool accepts. -/
structure TxPoolConfig where
  Journal : String
  PriceLimit : Nat
  deriving DecidableEq, Repr

/-- Type `gasprice.Config`; `Default` is a `*big.Int`. -/
structure GaspriceConfig where
  Blocks : Int
  Percentile : Int
  Default : Option Int
  deriving DecidableEq, Repr

/-- Type `core.Genesis`, seen through its chain configuration. -/
structure Genesis where
  Config : ChainConfig
  deriving DecidableEq, Repr

/-- Type `Config` of `config.go`. -/
structure Config where
  Genesis : Option Genesis
  NetworkId : Nat
  SyncMode : SyncMode
  NoPruning : Bool
  LightServ : Int
  LightPeers : Int
  SkipBcVersionCheck : Bool
  DatabaseHandles : Int
  DatabaseCache : Int
  TrieCache : Int
  TrieTimeout : Int
  aaeerbase : Address
  MinerThreads : Int
  ExtraData : Bytes
  GasPrice : Option Int
  aaeash : EthashConfig
  TxPool : TxPoolConfig
  GPO : GaspriceConfig
  EnablePreimageRecording : Bool
  DocRoot : String
  deriving DecidableEq, Repr

/-- Variable `DefaultConfig` of `config.go`, as its literal gives it (the
dataset directory is filled in from the environment at start-up). The pool
policy `core.DefaultTxPoolConfig` is declared outside these sources. -/
def DefaultConfig : Config :=
  { Genesis := none
    NetworkId := 1
    SyncMode := FastSync
    NoPruning := false
    LightServ := 0
    LightPeers := 100
    SkipBcVersionCheck := false
    DatabaseHandles := 0
    DatabaseCache := 768
    TrieCache := 256
    TrieTimeout := 300000000000
    aaeerbase := 0
    MinerThreads := 0
    ExtraData := []
    GasPrice := some 18000000000
    aaeash :=
      { CacheDir := "ethash", CachesInMem := 2, CachesOnDisk := 3, DatasetDir := "",
        DatasetsInMem := 1, DatasetsOnDisk := 2, PowMode := ModeNormal }
    TxPool := { Journal := "transactions.rlp", PriceLimit := 1 }
    GPO := { Blocks := 20, Percentile := 60, Default := none }
    EnablePreimageRecording := false
    DocRoot := "" }

/-- Type `ProtocolManager`, seen through the `acceptTxs` flag (a `uint32`). -/
structure ProtocolManager where
  acceptTxs : Nat
  deriving DecidableEq, Repr

/-- Type `miner.Miner`, seen through what `Mining()` reports. -/
structure Miner where
  mining : Bool
  deriving DecidableEq, Repr

/-- The dynamic type of the `consensus.Engine` held by the service: the type
assertion `s.engine.(*clique.Clique)` succeeds on `clique` only. -/
inductive Engine where
  | clique
  | ethash
  deriving DecidableEq, Repr

/-- Type `ethapi.PublicNetAPI` as built by `NewPublicNetAPI(srvr, version)`. -/
structure PublicNetAPI where
  net : Server
  networkVersion : Nat
  deriving DecidableEq, Repr

/-- A call from the service into a collaborator. -/
inductive Event where
  | logInfo (msg : String)
  | logError (msg : String)
  | startBloomHandlers
  | protocolManagerStart (maxPeers : Int)
  | lesServerStart (srvr : Server)
  | find (account : Account)
  | authorize (signer : Address) (wallet : Wallet)
  | minerStart (coinbase : Address)
  | logWarn (msg : String)
  | minerSetaaeerbase (addr : Address)
  | openDatabase (name : String) (cache handles : Int)
  | dbMeter (label : String)
  | upgradeDeduplicateData (db : Database)
  | setupGenesisBlock (db : Database) (genesis : Option Genesis)
  | newBloomIndexer (db : Database)
  | getBlockChainVersion (db : Database)
  | writeBlockChainVersion (db : Database) (version : Int)
  | newBlockChain (db : Database) (noPruning : Bool) (trieNodeLimit trieTimeLimit : Int)
      (chainConfig : ChainConfig) (engine : ConsensusEngine) (preimages : Bool)
  | setHead (number : Nat)
  | writeChainConfig (db : Database) (hash : Hash) (chainConfig : ChainConfig)
  | bloomIndexerStart
  | newTxPool (config : TxPoolConfig) (chainConfig : ChainConfig)
  | newProtocolManager (chainConfig : ChainConfig) (mode : SyncMode) (networkId : Nat)
  | minerNew (chainConfig : ChainConfig) (engine : ConsensusEngine)
  | minerSetExtra (extra : Bytes)
  | newOracle (params : GaspriceConfig)
  | stopDbUpgrade
  | bloomIndexerClose
  | blockchainStop
  | protocolManagerStop
  | lesServerStop
  | txPoolStop
  | minerStop
  | eventMuxStop
  | chainDbClose
  | closeShutdownChan
  deriving DecidableEq, Repr

/-- The state of a channel variable: nil, made and open, or closed. -/
inductive Chan where
  | absent
  | opened
  | closed
  deriving DecidableEq, Repr

/-- The struct `aaechain`, restricted to the fields read or written by the
methods embedded below. An attached light server is `true` in `lesServer`
(the field is non-nil), a held cancel function is `true` in `stopDbUpgrade`;
`engine` keeps the dynamic type of the engine, `gpo` the parameters the
oracle of `ApiBackend` was built with. The handles to chain state, pool,
event bus and bloom indexer carry no data of their own: calls on them are
events. Three flags keep what the teardown depends on in the collaborators:
`syncStarted`, whether `protocolManager.Start` has run; `indexerClosed`,
whether `bloomIndexer.Close` has run; `upgradeCancelled`, whether the cancel
function has been called. -/
structure aaechain where
  config : Config
  protocolManager : ProtocolManager
  lesServer : Bool
  engine : Engine
  accountManager : Manager
  miner : Miner
  aaeerbase : Address
  networkId : Nat
  netRPCService : Option PublicNetAPI
  chainConfig : ChainConfig
  chainDb : Database
  stopDbUpgrade : Bool
  shutdownChan : Chan
  gasPrice : Option Int
  gpo : Option GaspriceConfig
  syncStarted : Bool
  indexerClosed : Bool
  upgradeCancelled : Bool

/-- Two's-complement wrap of a mathematical integer to a Go `int` (64 bits). -/
def wrapInt64 (x : Int) : Int :=
  (x + 2 ^ 63) % 2 ^ 64 - 2 ^ 63

/-- The text `fmt` prints for an `error` under the verb `%v`. -/
def fmtErr : Option String → String
  | none => "<nil>"
  | some m => m

/-- Method `NetVersion`. -/
def NetVersion (s : aaechain) : Nat := s.networkId

/-- Method `IsMining`. -/
def IsMining (s : aaechain) : Bool := s.miner.mining

/-- Method `aaeerbase()`: the configured etherbase when it is non-zero,
otherwise the first account of the first wallet, which is then stored in the
field; an error when there is neither. Returns the new service, the calls
made, and the Go result pair `(eb, err)`. -/
def aaeerbase (s : aaechain) : aaechain × List Event × Address × Option String :=
  let eb := s.aaeerbase
  if eb ≠ 0 then
    (s, [], eb, none)
  else
    match s.accountManager.Wallets with
    | w :: _ =>
      match w.Accounts with
      | a :: _ =>
        ({ s with aaeerbase := a.Address },
          [Event.logInfo "aaeerbase automatically configured"], a.Address, none)
      | [] => (s, [], 0, some "aaeerbase must be explicitly specified")
    | [] => (s, [], 0, some "aaeerbase must be explicitly specified")

/-- Method `StartMining(local)`. The goroutine `go s.miner.Start(eb)` is the
event `minerStart eb`. -/
def StartMining (s : aaechain) (local_ : Bool) : aaechain × List Event × Option String :=
  match aaeerbase s with
  | (s1, ev1, _, some e) =>
    (s1, ev1 ++ [Event.logError "Cannot start mining without aaeerbase"],
      some ("aaeerbase missing: " ++ fmtErr (some e)))
  | (s1, ev1, eb, none) =>
    let proceed (ev : List Event) : aaechain × List Event × Option String :=
      let s2 : aaechain :=
        if local_ then { s1 with protocolManager := { s1.protocolManager with acceptTxs := 1 } }
        else s1
      (s2, ev ++ [Event.minerStart eb], none)
    match s1.engine with
    | Engine.clique =>
      let acct : Account := { Address := eb, URL := "" }
      match s1.accountManager.Find acct with
      | (some wallet, none) =>
        proceed (ev1 ++ [Event.find acct, Event.authorize eb wallet])
      | (_, err) =>
        (s1, ev1 ++ [Event.find acct, Event.logError "aaeerbase account unavailable locally"],
          some ("signer missing: " ++ fmtErr err))
    | _ => proceed ev1

/-- Method `Start(srvr)`. The call of `protocolManager.Start` leaves the sync
manager started. -/
def Start (s : aaechain) (srvr : Server) : aaechain × List Event × Option String :=
  let ev0 := [Event.startBloomHandlers]
  let s1 : aaechain := { s with netRPCService := some ⟨srvr, NetVersion s⟩ }
  let finish (maxPeers : Int) : aaechain × List Event × Option String :=
    let ev1 := ev0 ++ [Event.protocolManagerStart maxPeers]
    let s2 : aaechain := { s1 with syncStarted := true }
    if s1.lesServer then (s2, ev1 ++ [Event.lesServerStart srvr], none) else (s2, ev1, none)
  let maxPeers := srvr.MaxPeers
  if s1.config.LightServ > 0 then
    if s1.config.LightPeers ≥ srvr.MaxPeers then
      (s1, ev0,
        some ("invalid peer config: light peer count (" ++ toString s1.config.LightPeers
          ++ ") >= total peer count (" ++ toString srvr.MaxPeers ++ ")"))
    else
      finish (wrapInt64 (maxPeers - s1.config.LightPeers))
  else
    finish maxPeers

/-- Method `Setaaeerbase(aaeerbase)`: stores the address in the field, then
hands it to the miner. -/
def Setaaeerbase (s : aaechain) (a : Address) : aaechain × List Event :=
  ({ s with aaeerbase := a }, [Event.minerSetaaeerbase a])

/-- How a call ended: it returned its `error` result, it panicked, or it
blocked for good. -/
inductive Outcome where
  | returned (err : Option String)
  | panicked (msg : String)
  | blocked (call : String)
  deriving DecidableEq, Repr

/-- How a call into a collaborator ends. -/
inductive CallEnd where
  | returns
  | panics (msg : String)
  | blocks
  deriving DecidableEq, Repr

/-- Modelled from the spec: the cancel function returned by
`upgradeDeduplicateData` (file `db_upgrade.go`) is missing from these sources.
The spec has the migration pass return "a cancel function retained for
teardown": the function hands a reply channel to the migration task and
waits for the answer, so its first call returns, and a later call, the task
being gone, blocks. -/
def cancelUpgradeEnd (cancelled : Bool) : CallEnd :=
  if cancelled then CallEnd.blocks else CallEnd.returns

/-- Modelled from the spec: method `ChainIndexer.Close` (package `core`) is
missing from these sources. The spec has the bloom indexer run as a
background task closed during `Stop()`: the method hands a reply channel to
the indexer's loop and waits for the answer, so its first call returns, and
a later call, the loop being gone, blocks. -/
def indexerCloseEnd (closed : Bool) : CallEnd :=
  if closed then CallEnd.blocks else CallEnd.returns

/-- Modelled from the spec: method `ProtocolManager.Stop` (file `handler.go`)
is missing from these sources. The spec has "Start() must complete before
Stop() is valid": the method unsubscribes what `ProtocolManager.Start`
subscribed, so on a manager that was started it returns, and on one that
never was it panics on the nil subscription. -/
def protocolManagerStopEnd (started : Bool) : CallEnd :=
  if started then CallEnd.returns
  else CallEnd.panics "runtime error: invalid memory address or nil pointer dereference"

/-- Method `Stop()`. A call that panics or blocks ends `Stop` there, after
the calls made before it. The built-in `close` panics on a nil or closed
channel. -/
def Stop (s : aaechain) : aaechain × List Event × Outcome :=
  let afterIndexer (s2 : aaechain) (ev2 : List Event) : aaechain × List Event × Outcome :=
    let ev3 := ev2 ++ [Event.blockchainStop, Event.protocolManagerStop]
    match protocolManagerStopEnd s2.syncStarted with
    | CallEnd.panics msg => (s2, ev3, Outcome.panicked msg)
    | CallEnd.blocks => (s2, ev3, Outcome.blocked "protocolManager.Stop")
    | CallEnd.returns =>
      let ev4 := if s2.lesServer then ev3 ++ [Event.lesServerStop] else ev3
      let ev5 := ev4 ++
        [Event.txPoolStop, Event.minerStop, Event.eventMuxStop, Event.chainDbClose]
      match s2.shutdownChan with
      | Chan.opened =>
        ({ s2 with shutdownChan := Chan.closed }, ev5 ++ [Event.closeShutdownChan],
          Outcome.returned none)
      | Chan.closed => (s2, ev5, Outcome.panicked "close of closed channel")
      | Chan.absent => (s2, ev5, Outcome.panicked "close of nil channel")
  let afterCancel (s1 : aaechain) (ev1 : List Event) : aaechain × List Event × Outcome :=
    let ev2 := ev1 ++ [Event.bloomIndexerClose]
    match indexerCloseEnd s1.indexerClosed with
    | CallEnd.blocks => (s1, ev2, Outcome.blocked "bloomIndexer.Close")
    | CallEnd.panics msg => (s1, ev2, Outcome.panicked msg)
    | CallEnd.returns => afterIndexer { s1 with indexerClosed := true } ev2
  if s.stopDbUpgrade then
    match cancelUpgradeEnd s.upgradeCancelled with
    | CallEnd.blocks => (s, [Event.stopDbUpgrade], Outcome.blocked "stopDbUpgrade")
    | CallEnd.panics msg => (s, [Event.stopDbUpgrade], Outcome.panicked msg)
    | CallEnd.returns => afterCancel { s with upgradeCancelled := true } [Event.stopDbUpgrade]
  else
    afterCancel s []

/-- The node package's service context, seen through what `New` uses. -/
structure ServiceContext where
  AccountManager : Manager
  OpenDatabase : String → Int → Int → Except String Database
  ResolvePath : String → String

/-- Type `params.ConfigCompatError` against every other non-nil error, as the
type assertion on the genesis error tells them apart. -/
inductive GenesisError where
  | compat (RewindTo : Nat) (msg : String)
  | other (msg : String)
  deriving DecidableEq, Repr

/-- What the packages `New` calls into answer, and the constants it reads
from them: `core.BlockChainVersion`, `params.MaximumExtraDataSize`, the RLP
encoding of the version fingerprint, whether `upgradeDeduplicateData`
returned a cancel function, the three results of `core.SetupGenesisBlock`,
the result of `core.GetBlockChainVersion`, the error of
`core.NewBlockChain`, the results of `NewProtocolManager`, and the miner
built by `miner.New`. -/
structure World where
  BlockChainVersion : Int
  MaximumExtraDataSize : Nat
  defaultExtra : Bytes
  cancelUpgrade : Bool
  genesisConfig : ChainConfig
  genesisHash : Hash
  genesisErr : Option GenesisError
  storedVersion : Int
  blockChainErr : Option String
  protocolManager : Except String ProtocolManager
  miner : Miner

/-- The errors `New` returns, by the statement that returns them. -/
inductive NewError where
  | lightSync
  | invalidSyncMode (mode : SyncMode)
  | createDB (msg : String)
  | genesis (msg : String)
  | versionMismatch (stored expected : Int)
  | blockChain (msg : String)
  | protocolManager (msg : String)
  deriving DecidableEq, Repr

/-- The `Error()` text of an error returned by `New`. -/
def NewError.Error : NewError → String
  | NewError.lightSync => "can't run aae.aaechain in light sync mode, use les.Lightaaechain"
  | NewError.invalidSyncMode mode => "invalid sync mode " ++ toString mode
  | NewError.versionMismatch stored expected =>
    "Blockchain DB version mismatch (" ++ toString stored ++ " / " ++ toString expected
      ++ "). Run gaae upgradedb.\n"
  | NewError.createDB msg => msg
  | NewError.genesis msg => msg
  | NewError.blockChain msg => msg
  | NewError.protocolManager msg => msg

/-- The dynamic type of an engine value. -/
def ConsensusEngine.dynamicType : ConsensusEngine → Engine
  | ConsensusEngine.clique _ _ => Engine.clique
  | _ => Engine.ethash

/-- Function `makeExtraData(extra)`: the default fingerprint for an empty
input, and nil for anything longer than the maximum. -/
def makeExtraData (w : World) (extra : Bytes) : List Event × Bytes :=
  let extra := if extra.length = 0 then w.defaultExtra else extra
  if extra.length > w.MaximumExtraDataSize then
    ([Event.logWarn "Miner extra data exceed limit"], [])
  else
    ([], extra)

/-- Function `CreateDB(ctx, config, name)`. -/
def CreateDB (ctx : ServiceContext) (config : Config) (name : String) :
    List Event × Except String Database :=
  let ev := [Event.openDatabase name config.DatabaseCache config.DatabaseHandles]
  match ctx.OpenDatabase name config.DatabaseCache config.DatabaseHandles with
  | Except.error e => (ev, Except.error e)
  | Except.ok db =>
    if db.isLDB then (ev ++ [Event.dbMeter "aae/db/chaindata/"], Except.ok db)
    else (ev, Except.ok db)

/-- Function `CreateConsensusEngine(ctx, config, chainConfig, db)`. The engine
of the default case is `ethash.New` on a configuration holding the six cache
and dataset settings (its `PowMode` is the zero value), after
`SetThreads(-1)`. -/
def CreateConsensusEngine (ctx : ServiceContext) (config : EthashConfig)
    (chainConfig : ChainConfig) (db : Database) : List Event × ConsensusEngine :=
  match chainConfig.Clique with
  | some clique => ([], ConsensusEngine.clique clique db)
  | none =>
    if config.PowMode = ModeFake then
      ([Event.logWarn "aaeash used in fake mode"], ConsensusEngine.ethashFaker)
    else if config.PowMode = ModeTest then
      ([Event.logWarn "aaeash used in test mode"], ConsensusEngine.ethashTester)
    else if config.PowMode = ModeShared then
      ([Event.logWarn "aaeash used in shared mode"], ConsensusEngine.ethashShared)
    else
      ([], ConsensusEngine.ethash
        { CacheDir := ctx.ResolvePath config.CacheDir
          CachesInMem := config.CachesInMem
          CachesOnDisk := config.CachesOnDisk
          DatasetDir := config.DatasetDir
          DatasetsInMem := config.DatasetsInMem
          DatasetsOnDisk := config.DatasetsOnDisk
          PowMode := 0 } (-1))

/-- The second half of `New`, from `core.NewBlockChain` to the end, given the
store, the genesis error, the engine and the calls made so far. -/
def NewFromBlockChain (w : World) (ctx : ServiceContext) (config : Config)
    (chainDb : Database) (genesisErr : Option GenesisError) (engine : ConsensusEngine)
    (ev5 : List Event) : List Event × Option aaechain × Option NewError :=
  let chainConfig := w.genesisConfig
  let genesisHash := w.genesisHash
  let ev6 := ev5 ++
    [Event.newBlockChain chainDb config.NoPruning config.TrieCache config.TrieTimeout
      chainConfig engine config.EnablePreimageRecording]
  match w.blockChainErr with
  | some e => (ev6, none, some (NewError.blockChain e))
  | none =>
    let ev7 :=
      match genesisErr with
      | some (GenesisError.compat rewindTo _) =>
        ev6 ++ [Event.logWarn "Rewinding chain to upgrade configuration",
          Event.setHead rewindTo, Event.writeChainConfig chainDb genesisHash chainConfig]
      | _ => ev6
    let ev8 := ev7 ++ [Event.bloomIndexerStart]
    let txPool : TxPoolConfig :=
      if config.TxPool.Journal ≠ "" then
        { config.TxPool with Journal := ctx.ResolvePath config.TxPool.Journal }
      else config.TxPool
    let ev9 := ev8 ++ [Event.newTxPool txPool chainConfig,
      Event.newProtocolManager chainConfig config.SyncMode config.NetworkId]
    match w.protocolManager with
    | Except.error e => (ev9, none, some (NewError.protocolManager e))
    | Except.ok protocolManager =>
      let extra := makeExtraData w config.ExtraData
      let ev10 := ev9 ++ [Event.minerNew chainConfig engine] ++ extra.1 ++
        [Event.minerSetExtra extra.2]
      let gpoParams : GaspriceConfig :=
        if config.GPO.Default = none then { config.GPO with Default := config.GasPrice }
        else config.GPO
      (ev10 ++ [Event.newOracle gpoParams],
        some
          { config := { config with TxPool := txPool }
            protocolManager := protocolManager
            lesServer := false
            engine := engine.dynamicType
            accountManager := ctx.AccountManager
            miner := w.miner
            aaeerbase := config.aaeerbase
            networkId := config.NetworkId
            netRPCService := none
            chainConfig := chainConfig
            chainDb := chainDb
            stopDbUpgrade := w.cancelUpgrade
            shutdownChan := Chan.opened
            gasPrice := config.GasPrice
            gpo := some gpoParams
            syncStarted := false
            indexerClosed := false
            upgradeCancelled := false },
        none)

/-- Function `New(ctx, config)`: the calls made, the service (nil on error)
and the error. Its statements from `core.NewBlockChain` on are
`NewFromBlockChain`. -/
def New (w : World) (ctx : ServiceContext) (config : Config) :
    List Event × Option aaechain × Option NewError :=
  if config.SyncMode = LightSync then
    ([], none, some NewError.lightSync)
  else if ¬ SyncMode.IsValid config.SyncMode then
    ([], none, some (NewError.invalidSyncMode config.SyncMode))
  else
    match CreateDB ctx config "chaindata" with
    | (ev1, Except.error e) => (ev1, none, some (NewError.createDB e))
    | (ev1, Except.ok chainDb) =>
      let ev2 := ev1 ++
        [Event.upgradeDeduplicateData chainDb, Event.setupGenesisBlock chainDb config.Genesis]
      let chainConfig := w.genesisConfig
      match w.genesisErr with
      | some (GenesisError.other m) => (ev2, none, some (NewError.genesis m))
      | genesisErr =>
        let ev3 := ev2 ++ [Event.logInfo "Initialised chain configuration"]
        let created := CreateConsensusEngine ctx config.aaeash chainConfig chainDb
        let engine := created.2
        let ev4 := ev3 ++ created.1 ++
          [Event.newBloomIndexer chainDb, Event.logInfo "Initialising aaechain protocol"]
        if ¬ config.SkipBcVersionCheck then
          let bcVersion := w.storedVersion
          if bcVersion ≠ w.BlockChainVersion ∧ bcVersion ≠ 0 then
            (ev4 ++ [Event.getBlockChainVersion chainDb], none,
              some (NewError.versionMismatch bcVersion w.BlockChainVersion))
          else
            NewFromBlockChain w ctx config chainDb genesisErr engine
              (ev4 ++ [Event.getBlockChainVersion chainDb,
                Event.writeBlockChainVersion chainDb w.BlockChainVersion])
        else
          NewFromBlockChain w ctx config chainDb genesisErr engine ev4

/-- The schema versions handed to `core.WriteBlockChainVersion`, in call order. -/
def versionWrites (evs : List Event) : List Int :=
  evs.filterMap fun e =>
    match e with
    | Event.writeBlockChainVersion _ v => some v
    | _ => none

/-- The number of `core.GetBlockChainVersion` calls. -/
def versionReads (evs : List Event) : Nat :=
  (evs.filter fun e =>
    match e with
    | Event.getBlockChainVersion _ => true
    | _ => false).length

/-- The calls on the chain-state manager and the configuration writes, in
call order: `core.NewBlockChain`, `SetHead`, `core.WriteChainConfig`. -/
def chainSteps (evs : List Event) : List Event :=
  evs.filter fun e =>
    match e with
    | Event.newBlockChain _ _ _ _ _ _ _ => true
    | Event.setHead _ => true
    | Event.writeChainConfig _ _ _ => true
    | _ => false

/-- The parameters handed to `gasprice.NewOracle`, in call order. -/
def oracleParams (evs : List Event) : List GaspriceConfig :=
  evs.filterMap fun e =>
    match e with
    | Event.newOracle params => some params
    | _ => none

/-- The teardown order as the spec words it: cancel the migration task when a
cancel function is held, close the bloom indexer, stop the chain state, stop
the sync manager, stop the light server when one is attached, stop the pool,
stop the miner, stop the event bus, close the store, close the shutdown
channel. -/
def specTeardown (cancelHeld lesAttached : Bool) : List Event :=
  (if cancelHeld then [Event.stopDbUpgrade] else []) ++
    [Event.bloomIndexerClose, Event.blockchainStop, Event.protocolManagerStop] ++
    (if lesAttached then [Event.lesServerStop] else []) ++
    [Event.txPoolStop, Event.minerStop, Event.eventMuxStop, Event.chainDbClose,
      Event.closeShutdownChan]

/-- A lifecycle call on a service. -/
inductive Call where
  | Start (srvr : Server)
  | Stop
  | StartMining (local_ : Bool)
  | Setaaeerbase (a : Address)
  deriving DecidableEq, Repr

/-- One lifecycle call: the new service, the calls made, and whether the call
returned (`false` when it panicked or blocked). -/
def step (s : aaechain) : Call → aaechain × List Event × Bool
  | Call.Start srvr => ((Start s srvr).1, (Start s srvr).2.1, true)
  | Call.Stop =>
    match Stop s with
    | (s1, ev, Outcome.returned _) => (s1, ev, true)
    | (s1, ev, _) => (s1, ev, false)
  | Call.StartMining local_ => ((StartMining s local_).1, (StartMining s local_).2.1, true)
  | Call.Setaaeerbase a => ((Setaaeerbase s a).1, (Setaaeerbase s a).2, true)

/-- A sequence of lifecycle calls on one service: the final service and all
calls made. A call that panicked or blocked is followed by the next call all
the same (the panic recovered, the next call made from another goroutine),
which covers the sequence cut short at that point too. -/
def run (s : aaechain) : List Call → aaechain × List Event
  | [] => (s, [])
  | c :: cs => ((run (step s c).1 cs).1, (step s c).2.1 ++ (run (step s c).1 cs).2)

/-- The peer budgets handed to `protocolManager.Start`, in call order. -/
def startedBudgets : List Event → List Int
  | [] => []
  | Event.protocolManagerStart n :: es => n :: startedBudgets es
  | _ :: es => startedBudgets es

/-- An account manager without wallets, whose `Find` knows no account. -/
def emptyManager : Manager :=
  { Wallets := [], Find := fun _ => (none, some "unknown account") }

/-- A service on the default configuration of `config.go` (`LightServ` 0,
`LightPeers` 100) with a light server attached, not yet started. -/
def defaultService : aaechain :=
  { config := DefaultConfig
    protocolManager := { acceptTxs := 0 }
    lesServer := true
    engine := Engine.ethash
    accountManager := emptyManager
    miner := { mining := false }
    aaeerbase := 0
    networkId := 1
    netRPCService := none
    chainConfig := { ChainId := 1, Clique := none }
    chainDb := { Name := "chaindata", isLDB := true }
    stopDbUpgrade := false
    shutdownChan := Chan.opened
    gasPrice := some 18000000000
    gpo := some { Blocks := 20, Percentile := 60, Default := some 18000000000 }
    syncStarted := false
    indexerClosed := false
    upgradeCancelled := false }

/-- The default service with the given `LightServ` and `LightPeers`. -/
def lightService (lightServ lightPeers : Int) : aaechain :=
  { defaultService with
    config := { DefaultConfig with LightServ := lightServ, LightPeers := lightPeers } }

/-- A server with room for 25 peers. -/
def server25 : Server := { Name := "node", MaxPeers := 25 }

/-- A run of later `aaeerbase()` calls on one service: before each call the
account manager is replaced by the next one of the list (its wallet list may
have changed in between); the Go result pairs are collected in call order. -/
def laterCalls (s : aaechain) : List Manager → List (Address × Option String)
  | [] => []
  | am :: ams =>
    (aaeerbase { s with accountManager := am }).2.2 ::
      laterCalls (aaeerbase { s with accountManager := am }).1 ams

/-- A wallet holding the accounts `0x11` and `0x12`. -/
def walletA : Wallet :=
  { URL := "keystore://a", Accounts := [⟨0x11, "a/1"⟩, ⟨0x12, "a/2"⟩] }

/-- A wallet holding the account `0x21`. -/
def walletB : Wallet :=
  { URL := "keystore://b", Accounts := [⟨0x21, "b/1"⟩] }

/-- An account manager holding `walletA`, whose `Find` knows its first account. -/
def managerA : Manager :=
  { Wallets := [walletA]
    Find := fun acct => if acct.Address = 0x11 then (some walletA, none)
      else (none, some "unknown account") }

/-- A wallet whose first account has the zero address and whose second is `0x12`. -/
def walletZ : Wallet :=
  { URL := "keystore://z", Accounts := [⟨0, "z/1"⟩, ⟨0x12, "z/2"⟩] }

/-- An account manager holding `walletZ`, finding no account. -/
def managerZ : Manager :=
  { Wallets := [walletZ], Find := fun _ => (none, some "unknown account") }

/-- An account manager holding `walletB` only. -/
def managerB : Manager :=
  { Wallets := [walletB]
    Find := fun acct => if acct.Address = 0x21 then (some walletB, none)
      else (none, some "unknown account") }

/-- The default service with etherbase `0x07` configured (ethash engine, no wallet). -/
def ethashService7 : aaechain := { defaultService with aaeerbase := 7 }

/-- As `ethashService7`, with the `acceptTxs` flag at 5. -/
def ethashService7Flag5 : aaechain := { ethashService7 with protocolManager := ⟨5⟩ }

/-- The default service with `managerZ` as account manager (ethash engine). -/
def ethashServiceZ : aaechain := { defaultService with accountManager := managerZ }

/-- The default service with `managerA` as account manager (ethash engine). -/
def ethashServiceA : aaechain := { defaultService with accountManager := managerA }

/-- A clique service with etherbase `0x07` configured and no wallet. -/
def cliqueService7 : aaechain := { ethashService7 with engine := Engine.clique }

/-- A clique service without etherbase, with `managerA` as account manager. -/
def cliqueServiceA : aaechain := { ethashServiceA with engine := Engine.clique }

/-- A context with no wallets whose store opens as a LevelDB database and
whose paths resolve under `/data/`. -/
def testContext : ServiceContext :=
  { AccountManager := emptyManager
    OpenDatabase := fun name _ _ => Except.ok { Name := name, isLDB := true }
    ResolvePath := fun path => "/data/" ++ path }

/-- A world with a fresh store: no recorded schema version, nothing to
migrate (so no cancel function), no genesis error, extra data of at most 32
bytes, all collaborators succeeding. -/
def freshWorld : World :=
  { BlockChainVersion := 3
    MaximumExtraDataSize := 32
    defaultExtra := [0xc5, 0x83, 0x01, 0x08, 0x02]
    cancelUpgrade := false
    genesisConfig := { ChainId := 1, Clique := none }
    genesisHash := 0xd4e5
    genesisErr := none
    storedVersion := 0
    blockChainErr := none
    protocolManager := Except.ok { acceptTxs := 0 }
    miner := { mining := false } }

/-- As `freshWorld`, with schema version 2 recorded in the store. -/
def staleWorld : World := { freshWorld with storedVersion := 2 }

/-- As `freshWorld`, with a compatibility error asking for a rewind to block 5. -/
def rewindWorld : World :=
  { freshWorld with genesisErr := some (GenesisError.compat 5 "mismatching fork block") }

/-- As `freshWorld`, with a genesis error that is no compatibility error. -/
def conflictWorld : World :=
  { freshWorld with genesisErr := some (GenesisError.other "incompatible genesis block") }

/-- The default configuration with the version check skipped. -/
def skipConfig : Config := { DefaultConfig with SkipBcVersionCheck := true }

/-- The default configuration with an unrecognised sync mode. -/
def badModeConfig : Config := { DefaultConfig with SyncMode := 7 }

/-- The default configuration (gas price 18 gwei) with a pool that accepts
nothing below 50 gwei. -/
def pricedPoolConfig : Config :=
  { DefaultConfig with TxPool := { Journal := "", PriceLimit := 50000000000 } }

/-- The default configuration (gas price 18 gwei) with the oracle default set to 5. -/
def oracleDefaultConfig : Config :=
  { DefaultConfig with GPO := { Blocks := 20, Percentile := 60, Default := some 5 } }

/-! ## The two backends (`api_backend.go` of packages `aae` and `les`)

Lookups on the local chain are read from the backend record. Retrievals of
the light chain, which may go to the network, are recorded as `LesEvent`s.
The `context.Context` argument, which only carries cancellation, is left out. -/

/-- Type `types.Header`, seen through its number, its state root and the
result of `Hash()`. -/
structure Header where
  Number : Nat
  Root : Hash
  Hash : Hash
  deriving DecidableEq, Repr

/-- Type `types.Block`: its header and an identifier for its body. -/
structure Block where
  header : Header
  body : Nat
  deriving DecidableEq, Repr

/-- Type `state.StateDB`, seen through the root it was opened at. -/
structure StateDB where
  root : Hash
  deriving DecidableEq, Repr

/-- Type `rpc.BlockNumber`, a signed 64-bit integer. -/
abbrev BlockNumber := Int

/-- Constant `rpc.PendingBlockNumber`, declared in package `rpc`. -/
def PendingBlockNumber : BlockNumber := -2

/-- Constant `rpc.LatestBlockNumber`, declared in package `rpc`. -/
def LatestBlockNumber : BlockNumber := -1

/-- Constant `rpc.EarliestBlockNumber`, declared in package `rpc`. -/
def EarliestBlockNumber : BlockNumber := 0

/-- The conversion `uint64(blockNr)` of a signed 64-bit value. -/
def toUint64 (blockNr : BlockNumber) : Nat :=
  (blockNr % 2 ^ 64).toNat

/-- The results of a call, or the panic it ended in. -/
inductive Ret (α : Type) where
  | ok (v : α)
  | panic (msg : String)
  deriving DecidableEq, Repr

/-- Method `Header()` of `*types.Block`: it reads a field of its receiver, so
it panics on a nil block. -/
def Block.Header : Option Block → Ret Header
  | some block => Ret.ok block.header
  | none => Ret.panic "runtime error: invalid memory address or nil pointer dereference"

/-- Type `core.BlockChain` as the full backend queries it: `CurrentBlock()`,
`GetHeaderByNumber`, `GetBlockByNumber` and `StateAt` (a state and an error). -/
structure BlockChain where
  CurrentBlock : Option Block
  GetHeaderByNumber : Nat → Option Header
  GetBlockByNumber : Nat → Option Block
  StateAt : Hash → Option StateDB × Option String

/-- The struct `aaeApiBackend`: the service `aae`, with what its chain-state
manager `aae.blockchain` and its miner `aae.miner` answer to the backend:
`PendingBlock` is the result of `miner.PendingBlock()`, `Pending` the two
results of `miner.Pending()`. -/
structure aaeApiBackend where
  aae : aaechain
  blockchain : BlockChain
  PendingBlock : Option Block
  Pending : Option Block × Option StateDB

/-- Method `HeaderByNumber` of the full backend. -/
def aaeApiBackend.HeaderByNumber (b : aaeApiBackend) (blockNr : BlockNumber) :
    Ret (Option Header × Option String) :=
  if blockNr = PendingBlockNumber then
    match Block.Header b.PendingBlock with
    | Ret.ok header => Ret.ok (some header, none)
    | Ret.panic msg => Ret.panic msg
  else if blockNr = LatestBlockNumber then
    match Block.Header b.blockchain.CurrentBlock with
    | Ret.ok header => Ret.ok (some header, none)
    | Ret.panic msg => Ret.panic msg
  else
    Ret.ok (b.blockchain.GetHeaderByNumber (toUint64 blockNr), none)

/-- Method `BlockByNumber` of the full backend. -/
def aaeApiBackend.BlockByNumber (b : aaeApiBackend) (blockNr : BlockNumber) :
    Ret (Option Block × Option String) :=
  if blockNr = PendingBlockNumber then
    Ret.ok (b.PendingBlock, none)
  else if blockNr = LatestBlockNumber then
    Ret.ok (b.blockchain.CurrentBlock, none)
  else
    Ret.ok (b.blockchain.GetBlockByNumber (toUint64 blockNr), none)

/-- Method `StateAndHeaderByNumber` of the full backend. -/
def aaeApiBackend.StateAndHeaderByNumber (b : aaeApiBackend) (blockNr : BlockNumber) :
    Ret (Option StateDB × Option Header × Option String) :=
  if blockNr = PendingBlockNumber then
    match Block.Header b.Pending.1 with
    | Ret.ok header => Ret.ok (b.Pending.2, some header, none)
    | Ret.panic msg => Ret.panic msg
  else
    match b.HeaderByNumber blockNr with
    | Ret.panic msg => Ret.panic msg
    | Ret.ok (some header, none) =>
      Ret.ok ((b.blockchain.StateAt header.Root).1, some header,
        (b.blockchain.StateAt header.Root).2)
    | Ret.ok (_, err) => Ret.ok (none, none, err)

/-- Type `light.LightChain` as the light backend queries it: `CurrentHeader()`,
and the two on-demand retrievals `GetHeaderByNumberOdr` and `GetBlockByHash`,
each giving a result and an error. -/
structure LightChain where
  CurrentHeader : Option Header
  GetHeaderByNumberOdr : Nat → Option Header × Option String
  GetBlockByHash : Hash → Option Block × Option String

/-- The struct `LesApiBackend`, seen through the light chain of its service. -/
structure LesApiBackend where
  blockchain : LightChain

/-- A call from the light backend into the light chain or the light state. -/
inductive LesEvent where
  | currentHeader
  | getHeaderByNumberOdr (number : Nat)
  | getBlockByHash (hash : Hash)
  | newState (header : Header)
  deriving DecidableEq, Repr

/-- Method `HeaderByNumber` of the light backend. -/
def LesApiBackend.HeaderByNumber (b : LesApiBackend) (blockNr : BlockNumber) :
    List LesEvent × Option Header × Option String :=
  if blockNr = LatestBlockNumber ∨ blockNr = PendingBlockNumber then
    ([LesEvent.currentHeader], b.blockchain.CurrentHeader, none)
  else
    ([LesEvent.getHeaderByNumberOdr (toUint64 blockNr)],
      b.blockchain.GetHeaderByNumberOdr (toUint64 blockNr))

/-- Method `GetBlock` of the light backend. -/
def LesApiBackend.GetBlock (b : LesApiBackend) (blockHash : Hash) :
    List LesEvent × Option Block × Option String :=
  ([LesEvent.getBlockByHash blockHash], b.blockchain.GetBlockByHash blockHash)

/-- Method `BlockByNumber` of the light backend. -/
def LesApiBackend.BlockByNumber (b : LesApiBackend) (blockNr : BlockNumber) :
    List LesEvent × Option Block × Option String :=
  match b.HeaderByNumber blockNr with
  | (ev, some header, none) =>
    (ev ++ (b.GetBlock header.Hash).1, (b.GetBlock header.Hash).2)
  | (ev, _, err) => (ev, none, err)

/-- Method `StateAndHeaderByNumber` of the light backend; `light.NewState` gives
a state opened at the header's root. -/
def LesApiBackend.StateAndHeaderByNumber (b : LesApiBackend) (blockNr : BlockNumber) :
    List LesEvent × Option StateDB × Option Header × Option String :=
  match b.HeaderByNumber blockNr with
  | (ev, some header, none) =>
    (ev ++ [LesEvent.newState header], some { root := header.Root }, some header, none)
  | (ev, _, err) => (ev, none, none, err)

/-- The header of block 7, with state root `0x70`. -/
def header7 : Header := { Number := 7, Root := 0x70, Hash := 0x7a }

/-- The header of block 8, with state root `0x80`. -/
def header8 : Header := { Number := 8, Root := 0x80, Hash := 0x8a }

/-- A chain whose current block is block 7, holding the blocks 0 to 7 seen
through block 7 only, and the state of no root. -/
def chain7 : BlockChain :=
  { CurrentBlock := some { header := header7, body := 70 }
    GetHeaderByNumber := fun n => if n = 7 then some header7 else none
    GetBlockByNumber := fun n => if n = 7 then some { header := header7, body := 70 } else none
    StateAt := fun _ => (none, some "missing trie node") }

/-- A full backend on `defaultService`, whose miner is not mining, over
`chain7`; the miner holds block 8 as pending block. -/
def idleBackend : aaeApiBackend :=
  { aae := defaultService
    blockchain := chain7
    PendingBlock := some { header := header8, body := 80 }
    Pending := (some { header := header8, body := 80 }, some { root := 0x80 }) }

/-- A light backend whose current header is that of block 7 and whose
retrievals find block 7 only: for any other number the retrieval answers with
the light chain's error "No trusted canonical hash trie", for any other hash
with "Header not found". -/
def lightBackend7 : LesApiBackend :=
  { blockchain :=
      { CurrentHeader := some header7
        GetHeaderByNumberOdr := fun n =>
          if n = 7 then (some header7, none) else (none, some "No trusted canonical hash trie")
        GetBlockByHash := fun h =>
          if h = 0x7a then (some { header := header7, body := 70 }, none)
          else (none, some "Header not found") } }

/-- The default service after a successful `Start` on `server25`. -/
def startedService : aaechain := (Start defaultService server25).1

/-- A wallet without accounts. -/
def walletEmpty : Wallet := { URL := "keystore://empty", Accounts := [] }

/-- An account manager whose first wallet is empty and whose second is `walletA`. -/
def managerEmptyFirst : Manager :=
  { Wallets := [walletEmpty, walletA], Find := fun _ => (none, some "unknown account") }

/-- The default service with `managerEmptyFirst` as account manager. -/
def ethashServiceEmptyFirst : aaechain :=
  { defaultService with accountManager := managerEmptyFirst }

/-! ## Start: the peer-budget check -/

/-- The events of a `Start` call that does not fail on the peer budget. -/
theorem Start_events_ok (s : aaechain) (srvr : Server)
    (h : ¬ (s.config.LightServ > 0 ∧ s.config.LightPeers ≥ srvr.MaxPeers)) :
    (Start s srvr).2.2 = none ∧
      startedBudgets (Start s srvr).2.1 =
        [if s.config.LightServ > 0 then wrapInt64 (srvr.MaxPeers - s.config.LightPeers)
          else srvr.MaxPeers] := by
  by_cases h1 : s.config.LightServ > 0
  · have h2 : ¬ s.config.LightPeers ≥ srvr.MaxPeers := fun h2 => h ⟨h1, h2⟩
    cases hl : s.lesServer <;> simp [Start, h1, h2, hl, startedBudgets]
  · cases hl : s.lesServer <;> simp [Start, h1, hl, startedBudgets]

/-- The result of a `Start` call that fails on the peer budget. -/
theorem Start_events_err (s : aaechain) (srvr : Server)
    (h1 : s.config.LightServ > 0) (h2 : s.config.LightPeers ≥ srvr.MaxPeers) :
    (Start s srvr).2 =
      ([Event.startBloomHandlers],
        some ("invalid peer config: light peer count (" ++ toString s.config.LightPeers
          ++ ") >= total peer count (" ++ toString srvr.MaxPeers ++ ")")) := by
  simp [Start, h1, h2]

/-- The wrap is the identity on the 64-bit range. -/
theorem wrapInt64_of_range (x : Int) (h0 : -(2 ^ 63) ≤ x) (h1 : x < 2 ^ 63) :
    wrapInt64 x = x := by
  unfold wrapInt64
  rw [Int.emod_eq_of_lt (by omega) (by omega)]
  omega

/-- Claim C1 as written fails twice over. With `LightServ = 0` and
`LightPeers = MaxPeers = 25`, `Start` returns no error and starts the bloom
handlers, the sync manager and the light server. With `LightServ = 1` it
returns the error, but the bloom handlers have been started. -/
theorem C1_counterexample :
    ((lightService 0 25).config.LightPeers = server25.MaxPeers ∧
      (Start (lightService 0 25) server25).2 =
        ([Event.startBloomHandlers, Event.protocolManagerStart 25,
          Event.lesServerStart server25], none)) ∧
    ((lightService 1 25).config.LightPeers = server25.MaxPeers ∧
      Event.startBloomHandlers ∈ (Start (lightService 1 25) server25).2.1) := by
  decide

/-- Claim C1, amended: when light serving is enabled (`LightServ > 0`) and
`LightPeers` equals `MaxPeers`, `Start` returns the configuration error, and
the only call it has made is the launch of the bloom handlers at its top:
neither `protocolManager.Start` nor the light server's `Start` is called. -/
theorem C1_Start_equal_budget_fails (s : aaechain) (srvr : Server)
    (hserv : s.config.LightServ > 0) (heq : s.config.LightPeers = srvr.MaxPeers) :
    (Start s srvr).2.2 =
        some ("invalid peer config: light peer count (" ++ toString s.config.LightPeers
          ++ ") >= total peer count (" ++ toString srvr.MaxPeers ++ ")") ∧
      (Start s srvr).2.1 = [Event.startBloomHandlers] ∧
      (∀ n, Event.protocolManagerStart n ∉ (Start s srvr).2.1) ∧
      (∀ v, Event.lesServerStart v ∉ (Start s srvr).2.1) := by
  have h := Start_events_err s srvr hserv (by omega)
  rw [h]
  simp

/-- Witness for C1: light serving enabled, 25 reserved peers of 25. -/
theorem C1_Start_equal_budget_fails_witness :
    (lightService 1 25).config.LightServ > 0 ∧
      (Start (lightService 1 25) server25).2.2 =
        some "invalid peer config: light peer count (25) >= total peer count (25)" :=
  ⟨by decide,
    (C1_Start_equal_budget_fails (lightService 1 25) server25
      (by decide) (by decide)).1⟩

/-- Claim C2 as written fails on the default configuration: `LightServ = 0`,
`LightPeers = 100`, a server with 25 peers; `Start` succeeds and hands the
sync manager the full 25. The subtraction is also a machine one: with
`LightPeers = -1` and `MaxPeers = 2^63 - 1` the budget handed over is
`-2^63`, not `2^63`. -/
theorem C2_counterexample :
    (defaultService.config.LightPeers ≥ server25.MaxPeers ∧
      (Start defaultService server25).2.2 = none ∧
      startedBudgets (Start defaultService server25).2.1 = [25]) ∧
    (startedBudgets
        (Start (lightService 1 (-1)) ⟨"node", 2 ^ 63 - 1⟩).2.1 = [-(2 ^ 63)] ∧
      ((2 ^ 63 - 1 : Int) - (-1) ≠ -(2 ^ 63))) := by
  decide

/-- Claim C2, amended: `Start` fails exactly when light serving is enabled
(`LightServ > 0`) and `LightPeers >= MaxPeers`. Otherwise it calls
`protocolManager.Start` once: with `MaxPeers` when light serving is off, and
with the 64-bit difference `MaxPeers - LightPeers` when it is on, which is the
exact difference whenever that difference fits a Go `int`. -/
theorem C2_Start_peer_budget (s : aaechain) (srvr : Server) :
    ((Start s srvr).2.2 ≠ none ↔
        (s.config.LightServ > 0 ∧ s.config.LightPeers ≥ srvr.MaxPeers)) ∧
      (s.config.LightServ ≤ 0 →
        startedBudgets (Start s srvr).2.1 = [srvr.MaxPeers]) ∧
      (s.config.LightServ > 0 → s.config.LightPeers < srvr.MaxPeers →
        startedBudgets (Start s srvr).2.1 = [wrapInt64 (srvr.MaxPeers - s.config.LightPeers)] ∧
        (srvr.MaxPeers - s.config.LightPeers < 2 ^ 63 →
          startedBudgets (Start s srvr).2.1 = [srvr.MaxPeers - s.config.LightPeers])) := by
  refine ⟨?_, ?_, ?_⟩
  · constructor
    · intro hne
      by_contra hc
      exact hne (Start_events_ok s srvr hc).1
    · rintro ⟨h1, h2⟩
      rw [Start_events_err s srvr h1 h2]
      simp
  · intro h0
    have h := (Start_events_ok s srvr (fun hc => by omega)).2
    rw [h, if_neg (by omega)]
  · intro h1 h2
    have h := (Start_events_ok s srvr (fun hc => by omega)).2
    rw [if_pos h1] at h
    refine ⟨h, fun h3 => ?_⟩
    rw [h, wrapInt64_of_range _ (by omega) h3]

/-- Witness for C2: light serving enabled, 5 reserved peers of 25 leave 20. -/
theorem C2_Start_peer_budget_witness :
    (Start (lightService 1 5) server25).2.2 = none ∧
      startedBudgets (Start (lightService 1 5) server25).2.1 = [20] :=
  ⟨by decide,
    ((C2_Start_peer_budget (lightService 1 5) server25).2.2
      (by decide) (by decide)).2 (by decide)⟩

/-! ## The etherbase resolver -/

/-- An explicitly configured etherbase is returned as is. -/
theorem aaeerbase_of_set (s : aaechain) (h : s.aaeerbase ≠ 0) :
    aaeerbase s = (s, [], s.aaeerbase, none) := by
  simp [aaeerbase, h]

/-- Without etherbase and without wallets the resolver fails. -/
theorem aaeerbase_of_no_wallet (s : aaechain) (h : s.aaeerbase = 0)
    (hw : s.accountManager.Wallets = []) :
    aaeerbase s = (s, [], 0, some "aaeerbase must be explicitly specified") := by
  simp [aaeerbase, h, hw]

/-- Without etherbase the first account of the first wallet is taken and stored. -/
theorem aaeerbase_of_first_account (s : aaechain) (w : Wallet) (ws : List Wallet)
    (a : Account) (as : List Account) (h : s.aaeerbase = 0)
    (hw : s.accountManager.Wallets = w :: ws) (ha : w.Accounts = a :: as) :
    aaeerbase s =
      ({ s with aaeerbase := a.Address },
        [Event.logInfo "aaeerbase automatically configured"], a.Address, none) := by
  simp [aaeerbase, h, hw, ha]

/-- The three ways `aaeerbase()` can end. -/
theorem aaeerbase_cases (s : aaechain) :
    aaeerbase s = (s, [], s.aaeerbase, none) ∨
      aaeerbase s = (s, [], 0, some "aaeerbase must be explicitly specified") ∨
      ∃ a, aaeerbase s =
        ({ s with aaeerbase := a }, [Event.logInfo "aaeerbase automatically configured"],
          a, none) := by
  by_cases h : s.aaeerbase = 0
  · cases hw : s.accountManager.Wallets with
    | nil => exact Or.inr (Or.inl (aaeerbase_of_no_wallet s h hw))
    | cons w ws =>
      cases ha : w.Accounts with
      | nil => right; left; simp [aaeerbase, h, hw, ha]
      | cons a as => exact Or.inr (Or.inr ⟨a.Address, aaeerbase_of_first_account s w ws a as h hw ha⟩)
  · exact Or.inl (aaeerbase_of_set s h)

/-- Once the etherbase field is non-zero, every later call returns it. -/
theorem laterCalls_of_set (ams : List Manager) :
    ∀ s : aaechain, s.aaeerbase ≠ 0 → ∀ r ∈ laterCalls s ams, r = (s.aaeerbase, none) := by
  induction ams with
  | nil => intro s _ r hr; simp [laterCalls] at hr
  | cons am ams ih =>
    intro s h r hr
    have h1 : ({ s with accountManager := am } : aaechain).aaeerbase ≠ 0 := h
    have e := aaeerbase_of_set { s with accountManager := am } h1
    simp only [laterCalls, e, List.mem_cons] at hr
    rcases hr with hr | hr
    · exact hr
    · exact ih { s with accountManager := am } h1 r hr

/-- What `aaeerbase()` leaves alone: engine, account manager, sync manager
and miner. -/
theorem aaeerbase_frame (s : aaechain) :
    (aaeerbase s).1.engine = s.engine ∧
      (aaeerbase s).1.accountManager = s.accountManager ∧
      (aaeerbase s).1.protocolManager = s.protocolManager ∧
      (aaeerbase s).1.miner = s.miner := by
  rcases aaeerbase_cases s with h | h | ⟨a, h⟩ <;> rw [h] <;> exact ⟨rfl, rfl, rfl, rfl⟩

/-! ## StartMining -/

/-- `StartMining` when the resolver fails. -/
theorem StartMining_of_unresolved (s s1 : aaechain) (local_ : Bool) (ev1 : List Event)
    (eb : Address) (e : String) (h : aaeerbase s = (s1, ev1, eb, some e)) :
    StartMining s local_ =
      (s1, ev1 ++ [Event.logError "Cannot start mining without aaeerbase"],
        some ("aaeerbase missing: " ++ e)) := by
  simp [StartMining, h, fmtErr]

/-- `StartMining` on an engine that is not clique, once the etherbase is resolved. -/
theorem StartMining_of_ethash (s s1 : aaechain) (local_ : Bool) (ev1 : List Event)
    (eb : Address) (h : aaeerbase s = (s1, ev1, eb, none)) (he : s1.engine ≠ Engine.clique) :
    StartMining s local_ =
      (if local_ then { s1 with protocolManager := { s1.protocolManager with acceptTxs := 1 } }
        else s1,
        ev1 ++ [Event.minerStart eb], none) := by
  cases hen : s1.engine with
  | clique => exact absurd hen he
  | ethash => simp [StartMining, h, hen]

/-- `StartMining` on clique when `Find` yields a wallet and no error. -/
theorem StartMining_of_signer (s s1 : aaechain) (local_ : Bool) (ev1 : List Event)
    (eb : Address) (wallet : Wallet) (h : aaeerbase s = (s1, ev1, eb, none))
    (he : s1.engine = Engine.clique)
    (hf : s1.accountManager.Find ⟨eb, ""⟩ = (some wallet, none)) :
    StartMining s local_ =
      (if local_ then { s1 with protocolManager := { s1.protocolManager with acceptTxs := 1 } }
        else s1,
        ev1 ++ [Event.find ⟨eb, ""⟩, Event.authorize eb wallet, Event.minerStart eb], none) := by
  simp [StartMining, h, he, hf]

/-- `StartMining` on clique when `Find` yields no wallet or an error. -/
theorem StartMining_of_no_signer (s s1 : aaechain) (local_ : Bool) (ev1 : List Event)
    (eb : Address) (wallet : Option Wallet) (err : Option String)
    (h : aaeerbase s = (s1, ev1, eb, none)) (he : s1.engine = Engine.clique)
    (hf : s1.accountManager.Find ⟨eb, ""⟩ = (wallet, err))
    (hbad : wallet = none ∨ err ≠ none) :
    StartMining s local_ =
      (s1, ev1 ++ [Event.find ⟨eb, ""⟩, Event.logError "aaeerbase account unavailable locally"],
        some ("signer missing: " ++ fmtErr err)) := by
  cases wallet with
  | none => simp [StartMining, h, he, hf]
  | some w =>
    cases err with
    | none => simp at hbad
    | some e => simp [StartMining, h, he, hf]

/-- The resolver emits neither account lookups, nor authorizations, nor miner starts. -/
theorem aaeerbase_events (s : aaechain) :
    (aaeerbase s).2.1 = [] ∨
      (aaeerbase s).2.1 = [Event.logInfo "aaeerbase automatically configured"] := by
  rcases aaeerbase_cases s with h | h | ⟨a, h⟩ <;> rw [h] <;> simp

/-- Claim C3: with no etherbase configured and an account manager without
wallets, `StartMining(local)` returns the error "aaeerbase missing: ..." for
either value of `local`, never calls `miner.Start`, and leaves the service
unchanged: etherbase field, `acceptTxs` flag and `IsMining` are as before. -/
theorem C3_StartMining_no_identity (s : aaechain) (local_ : Bool)
    (hunset : s.aaeerbase = 0) (hw : s.accountManager.Wallets = []) :
    (StartMining s local_).2.2 =
        some "aaeerbase missing: aaeerbase must be explicitly specified" ∧
      (∀ a, Event.minerStart a ∉ (StartMining s local_).2.1) ∧
      IsMining (StartMining s local_).1 = IsMining s ∧
      (StartMining s local_).1.aaeerbase = s.aaeerbase ∧
      (StartMining s local_).1.protocolManager.acceptTxs = s.protocolManager.acceptTxs ∧
      (StartMining s local_).1 = s := by
  rw [StartMining_of_unresolved s s local_ [] 0 _ (aaeerbase_of_no_wallet s hunset hw)]
  refine ⟨?_, ?_, rfl, rfl, rfl, rfl⟩
  · show some ("aaeerbase missing: " ++ "aaeerbase must be explicitly specified") = _
    decide
  · intro a
    simp

/-- Witness for C3: the default service, local and remote. -/
theorem C3_StartMining_no_identity_witness :
    defaultService.aaeerbase = 0 ∧ IsMining defaultService = false ∧
      IsMining (StartMining defaultService true).1 = false ∧
      (StartMining defaultService false).2.2 =
        some "aaeerbase missing: aaeerbase must be explicitly specified" :=
  ⟨rfl, rfl, (C3_StartMining_no_identity defaultService true rfl rfl).2.2.1,
    (C3_StartMining_no_identity defaultService false rfl rfl).1⟩

/-- Claim C4: on the clique engine, when `accountManager.Find` for the
resolved etherbase returns no wallet or an error, `StartMining` returns the
error "signer missing: ...", calls neither `Authorize` nor `miner.Start`, and
leaves `acceptTxs` as it was, also when `local` is true. -/
theorem C4_StartMining_signer_missing (s : aaechain) (local_ : Bool) (eb : Address)
    (wallet : Option Wallet) (err : Option String)
    (heng : s.engine = Engine.clique)
    (hres : (aaeerbase s).2.2 = (eb, none))
    (hfind : s.accountManager.Find ⟨eb, ""⟩ = (wallet, err))
    (hbad : wallet = none ∨ err ≠ none) :
    (StartMining s local_).2.2 = some ("signer missing: " ++ fmtErr err) ∧
      (∀ a w, Event.authorize a w ∉ (StartMining s local_).2.1) ∧
      (∀ a, Event.minerStart a ∉ (StartMining s local_).2.1) ∧
      (StartMining s local_).1.protocolManager.acceptTxs = s.protocolManager.acceptTxs := by
  obtain ⟨fe, fa, fp, _⟩ := aaeerbase_frame s
  have h : aaeerbase s = ((aaeerbase s).1, (aaeerbase s).2.1, eb, none) := by
    rw [← hres]
  rw [StartMining_of_no_signer s _ local_ _ eb wallet err h (fe.trans heng)
    (by rw [fa]; exact hfind) hbad]
  refine ⟨rfl, ?_, ?_, by rw [fp]⟩
  · intro a w
    rcases aaeerbase_events s with e | e <;> simp [e]
  · intro a
    rcases aaeerbase_events s with e | e <;> simp [e]

/-- Witness for C4: clique engine, etherbase `0x07` unknown to the account manager. -/
theorem C4_StartMining_signer_missing_witness :
    cliqueService7.engine
        = Engine.clique ∧
      (StartMining cliqueService7 true).2.2 =
        some "signer missing: unknown account" ∧
      (StartMining cliqueService7
        true).1.protocolManager.acceptTxs = 0 :=
  ⟨rfl,
    (C4_StartMining_signer_missing cliqueService7
      true 7 none (some "unknown account") rfl (by decide) rfl (Or.inl rfl)).1,
    (C4_StartMining_signer_missing cliqueService7
      true 7 none (some "unknown account") rfl (by decide) rfl (Or.inl rfl)).2.2.2⟩

/-- Claim C5 as written fails for proof-of-work: on the ethash engine with
etherbase `0x07` configured and an account manager that holds no wallet and
finds none, `StartMining` returns nil and starts the miner on `0x07`. -/
theorem C5_counterexample :
    (StartMining ethashService7 false).2 =
        ([Event.minerStart 7], none) ∧
      ethashService7.engine = Engine.ethash ∧
      ethashService7.accountManager.Wallets = [] ∧
      ethashService7.accountManager.Find ⟨7, ""⟩ =
        (none, some "unknown account") := by
  decide

/-- The resolver succeeding on an unset etherbase field took the first
account of the first wallet. -/
theorem aaeerbase_of_unset_ok (s : aaechain) (eb : Address) (h : s.aaeerbase = 0)
    (hr : (aaeerbase s).2.2 = (eb, none)) :
    ∃ w ws a as, s.accountManager.Wallets = w :: ws ∧ w.Accounts = a :: as ∧
      a.Address = eb := by
  cases hw : s.accountManager.Wallets with
  | nil =>
    rw [aaeerbase_of_no_wallet s h hw] at hr
    simp at hr
  | cons w ws =>
    cases ha : w.Accounts with
    | nil =>
      have e : aaeerbase s = (s, [], 0, some "aaeerbase must be explicitly specified") := by
        simp [aaeerbase, h, hw, ha]
      rw [e] at hr
      simp at hr
    | cons a as =>
      rw [aaeerbase_of_first_account s w ws a as h hw ha] at hr
      simp only [Prod.mk.injEq, and_true] at hr
      exact ⟨w, ws, a, as, rfl, ha, hr⟩

/-- Claim C5, amended: on every engine and in every service state, if
`StartMining` returns nil, then it ends by starting the miner on the resolved
etherbase, and that etherbase is either the one the etherbase field held
already or, the field being unset, the first account of the account manager's
first wallet; on the clique engine, whichever it is, `accountManager.Find`
returned a wallet for it without error and `Authorize` bound that wallet's
signing function to it before the miner was started. -/
theorem C5_StartMining_backed (s : aaechain) (local_ : Bool)
    (hok : (StartMining s local_).2.2 = none) :
    ∃ eb, (aaeerbase s).2.2 = (eb, none) ∧
      (∃ pre, (StartMining s local_).2.1 = pre ++ [Event.minerStart eb]) ∧
      (s.aaeerbase ≠ 0 → eb = s.aaeerbase) ∧
      (s.aaeerbase = 0 →
        ∃ w ws a as, s.accountManager.Wallets = w :: ws ∧ w.Accounts = a :: as ∧
          a.Address = eb) ∧
      (s.engine = Engine.clique →
        ∃ wallet, s.accountManager.Find ⟨eb, ""⟩ = (some wallet, none) ∧
          (StartMining s local_).2.1 =
            (aaeerbase s).2.1 ++
              [Event.find ⟨eb, ""⟩, Event.authorize eb wallet, Event.minerStart eb]) := by
  obtain ⟨fe, fa, _, _⟩ := aaeerbase_frame s
  have hset : s.aaeerbase ≠ 0 → (aaeerbase s).2.2 = (s.aaeerbase, none) := by
    intro h
    rw [aaeerbase_of_set s h]
  have hunset := aaeerbase_of_unset_ok s
  rcases hr : aaeerbase s with ⟨s1, ev1, eb, e⟩
  rw [hr] at fe fa hset hunset
  simp only at fe fa hset hunset
  cases e with
  | some m =>
    rw [StartMining_of_unresolved s s1 local_ ev1 eb m hr] at hok
    simp at hok
  | none =>
    have horigin : (s.aaeerbase ≠ 0 → eb = s.aaeerbase) ∧
        (s.aaeerbase = 0 →
          ∃ w ws a as, s.accountManager.Wallets = w :: ws ∧ w.Accounts = a :: as ∧
            a.Address = eb) := by
      constructor
      · intro h
        have h2 := hset h
        simp only [Prod.mk.injEq, and_true] at h2
        exact h2
      · intro h
        exact hunset eb h rfl
    cases hen : s1.engine with
    | ethash =>
      have hne : s.engine ≠ Engine.clique := by
        rw [← fe, hen]
        decide
      rw [StartMining_of_ethash s s1 local_ ev1 eb hr (by rw [hen]; decide)]
      exact ⟨eb, rfl, ⟨ev1, rfl⟩, horigin.1, horigin.2, fun h => absurd h hne⟩
    | clique =>
      rcases hf : s1.accountManager.Find ⟨eb, ""⟩ with ⟨wallet, err⟩
      by_cases hbad : wallet = none ∨ err ≠ none
      · rw [StartMining_of_no_signer s s1 local_ ev1 eb wallet err hr hen hf hbad] at hok
        simp at hok
      · have hw : wallet ≠ none := fun h => hbad (Or.inl h)
        have he : err = none := by
          by_contra h
          exact hbad (Or.inr h)
        obtain ⟨w, rfl⟩ := Option.ne_none_iff_exists'.mp hw
        subst he
        rw [StartMining_of_signer s s1 local_ ev1 eb w hr hen hf]
        refine ⟨eb, rfl, ⟨ev1 ++ [Event.find ⟨eb, ""⟩, Event.authorize eb w], by simp⟩,
          horigin.1, horigin.2, fun _ => ⟨w, by rw [← fa]; exact hf, rfl⟩⟩

/-- Witness for C5: on the clique engine with no etherbase configured and
`walletA` in the account manager, and on the ethash engine with `walletA`,
mining starts on the first account `0x11` of the first wallet. -/
theorem C5_StartMining_backed_witness :
    (StartMining cliqueServiceA true).2.2 = none ∧
      (StartMining ethashServiceA false).2.2 = none ∧
      (∃ eb, (aaeerbase cliqueServiceA).2.2 = (eb, none) ∧
        (∃ pre, (StartMining cliqueServiceA true).2.1 = pre ++ [Event.minerStart eb]) ∧
        (cliqueServiceA.aaeerbase ≠ 0 → eb = cliqueServiceA.aaeerbase) ∧
        (cliqueServiceA.aaeerbase = 0 →
          ∃ w ws a as, cliqueServiceA.accountManager.Wallets = w :: ws ∧
            w.Accounts = a :: as ∧ a.Address = eb) ∧
        (cliqueServiceA.engine = Engine.clique →
          ∃ wallet, cliqueServiceA.accountManager.Find ⟨eb, ""⟩ = (some wallet, none) ∧
            (StartMining cliqueServiceA true).2.1 =
              (aaeerbase cliqueServiceA).2.1 ++
                [Event.find ⟨eb, ""⟩, Event.authorize eb wallet, Event.minerStart eb])) :=
  ⟨by decide, by decide, C5_StartMining_backed cliqueServiceA true (by decide)⟩

/-- Claim C6: on every `StartMining(local)` call that returns nil, the
`acceptTxs` flag ends at 1 when `local` is true, and at exactly its value
from before the call when `local` is false. -/
theorem C6_StartMining_acceptTxs (s : aaechain) (local_ : Bool)
    (hok : (StartMining s local_).2.2 = none) :
    (StartMining s local_).1.protocolManager.acceptTxs =
      if local_ then 1 else s.protocolManager.acceptTxs := by
  obtain ⟨fe, fa, fp, _⟩ := aaeerbase_frame s
  rcases hr : aaeerbase s with ⟨s1, ev1, eb, e⟩
  rw [hr] at fe fa fp
  simp only at fe fa fp
  cases e with
  | some m =>
    rw [StartMining_of_unresolved s s1 local_ ev1 eb m hr] at hok
    simp at hok
  | none =>
    cases hen : s1.engine with
    | ethash =>
      rw [StartMining_of_ethash s s1 local_ ev1 eb hr (by rw [hen]; decide)]
      cases local_ <;> simp [fp]
    | clique =>
      rcases hf : s1.accountManager.Find ⟨eb, ""⟩ with ⟨wallet, err⟩
      by_cases hbad : wallet = none ∨ err ≠ none
      · rw [StartMining_of_no_signer s s1 local_ ev1 eb wallet err hr hen hf hbad] at hok
        simp at hok
      · have hw : wallet ≠ none := fun h => hbad (Or.inl h)
        have he : err = none := by
          by_contra h
          exact hbad (Or.inr h)
        obtain ⟨w, rfl⟩ := Option.ne_none_iff_exists'.mp hw
        subst he
        rw [StartMining_of_signer s s1 local_ ev1 eb w hr hen hf]
        cases local_ <;> simp [fp]

/-- Witness for C6: a service whose flag is 5 keeps 5 on a remote start and
gets 1 on a local start. -/
theorem C6_StartMining_acceptTxs_witness :
    (StartMining ethashService7Flag5
        false).1.protocolManager.acceptTxs = 5 ∧
      (StartMining ethashService7Flag5
        true).1.protocolManager.acceptTxs = 1 :=
  ⟨C6_StartMining_acceptTxs ethashService7Flag5
      false (by decide),
    C6_StartMining_acceptTxs ethashService7Flag5
      true (by decide)⟩

/-- Claim C7: on every engine that is not clique, `StartMining` makes no
authorization step: it calls neither `accountManager.Find` nor `Authorize`;
and whenever the resolver yields an etherbase without error it returns nil
and starts the miner on that etherbase, that start being its only call after
resolution. -/
theorem C7_StartMining_no_authorization (s : aaechain) (local_ : Bool)
    (heng : s.engine ≠ Engine.clique) :
    (∀ a, Event.find a ∉ (StartMining s local_).2.1) ∧
      (∀ a w, Event.authorize a w ∉ (StartMining s local_).2.1) ∧
      (∀ eb, (aaeerbase s).2.2 = (eb, none) →
        (StartMining s local_).2.2 = none ∧
        (StartMining s local_).2.1 = (aaeerbase s).2.1 ++ [Event.minerStart eb]) := by
  obtain ⟨fe, _, _, _⟩ := aaeerbase_frame s
  have hev := aaeerbase_events s
  rcases hr : aaeerbase s with ⟨s1, ev1, eb, e⟩
  rw [hr] at fe hev
  simp only at fe hev
  have hen : s1.engine ≠ Engine.clique := fun h => heng (fe.symm.trans h)
  cases e with
  | some m =>
    rw [StartMining_of_unresolved s s1 local_ ev1 eb m hr]
    refine ⟨?_, ?_, ?_⟩
    · intro a
      rcases hev with h | h <;> simp [h]
    · intro a w
      rcases hev with h | h <;> simp [h]
    · intro eb2 h
      simp at h
  | none =>
    rw [StartMining_of_ethash s s1 local_ ev1 eb hr hen]
    refine ⟨?_, ?_, ?_⟩
    · intro a
      rcases hev with h | h <;> simp [h]
    · intro a w
      rcases hev with h | h <;> simp [h]
    · intro eb2 h
      simp only [Prod.mk.injEq, and_true] at h
      subst h
      exact ⟨rfl, rfl⟩

/-- Witness for C7: ethash engine, etherbase `0x07`, no wallet anywhere. -/
theorem C7_StartMining_no_authorization_witness :
    ethashService7.engine ≠ Engine.clique ∧
      (StartMining ethashService7 true).2.2 = none ∧
      (StartMining ethashService7 true).2.1 = [Event.minerStart 7] :=
  ⟨by decide,
    ((C7_StartMining_no_authorization ethashService7 true
      (by decide)).2.2 7 (by decide)).1,
    ((C7_StartMining_no_authorization ethashService7 true
      (by decide)).2.2 7 (by decide)).2⟩

/-- Claim C8: with an explicitly configured non-zero etherbase `a`, the
resolver returns `(a, nil)` whatever account manager is in place, makes no
call, and leaves the service (the etherbase field included) as it was. -/
theorem C8_aaeerbase_configured (s : aaechain) (a : Address) (am : Manager)
    (hset : s.aaeerbase = a) (hne : a ≠ 0) :
    (aaeerbase { s with accountManager := am }).2.2 = (a, none) ∧
      (aaeerbase { s with accountManager := am }).1 = { s with accountManager := am } ∧
      (aaeerbase { s with accountManager := am }).1.aaeerbase = a := by
  have h1 : ({ s with accountManager := am } : aaechain).aaeerbase ≠ 0 := by
    show s.aaeerbase ≠ 0
    rw [hset]; exact hne
  rw [aaeerbase_of_set _ h1]
  exact ⟨by simp [hset], rfl, hset⟩

/-- Witness for C8: etherbase `0x07` configured, wallets holding other accounts. -/
theorem C8_aaeerbase_configured_witness :
    (aaeerbase { ethashService7 with
      accountManager := managerA }).2.2 = (7, none) :=
  (C8_aaeerbase_configured ethashService7 7 managerA rfl (by decide)).1

/-- Claim C9 as written fails when the non-zero account is not the first:
the first wallet `walletZ` holds the accounts `0x00` and `0x12`, so it has an
account with a non-zero address; the resolver returns the first account's
address `0x00` without error, the etherbase field stays unset, and a later
call made after the wallet list became `[walletB]` returns `0x21`. -/
theorem C9_counterexample :
    ethashServiceZ.aaeerbase = 0 ∧
      (∃ w ws, ethashServiceZ.accountManager.Wallets = w :: ws ∧
        ∃ a ∈ w.Accounts, a.Address ≠ 0) ∧
      (aaeerbase ethashServiceZ).2.2 = (0, none) ∧
      (aaeerbase ethashServiceZ).1.aaeerbase = 0 ∧
      laterCalls (aaeerbase ethashServiceZ).1 [managerB] = [(0x21, none)] := by
  refine ⟨rfl, ⟨walletZ, [], rfl, ⟨0x12, "z/2"⟩, by decide, by decide⟩, ?_, ?_, ?_⟩ <;> decide

/-- Claim C9, amended: with no etherbase configured and a first wallet whose
first account has a non-zero address, the resolver returns that address
without error and stores it in the etherbase field; every later call returns
the same address, whatever wallet lists the account manager holds by then. -/
theorem C9_aaeerbase_fallback_remembered (s : aaechain) (w : Wallet) (ws : List Wallet)
    (a : Account) (as : List Account) (hunset : s.aaeerbase = 0)
    (hw : s.accountManager.Wallets = w :: ws) (ha : w.Accounts = a :: as)
    (hne : a.Address ≠ 0) :
    (aaeerbase s).2.2 = (a.Address, none) ∧
      (aaeerbase s).1.aaeerbase = a.Address ∧
      ∀ ams : List Manager, ∀ r ∈ laterCalls (aaeerbase s).1 ams, r = (a.Address, none) := by
  rw [aaeerbase_of_first_account s w ws a as hunset hw ha]
  refine ⟨rfl, rfl, fun ams r hr => ?_⟩
  exact laterCalls_of_set ams { s with aaeerbase := a.Address } hne r hr

/-- Witness for C9: the first account `0x11` of `walletA` is resolved, and is
still returned after the wallet list became `[walletB]` and then empty. -/
theorem C9_aaeerbase_fallback_remembered_witness :
    (aaeerbase ethashServiceA).2.2 = (0x11, none) ∧
      laterCalls (aaeerbase ethashServiceA).1
        [managerB, emptyManager] = [(0x11, none), (0x11, none)] :=
  ⟨(C9_aaeerbase_fallback_remembered ethashServiceA
      walletA [] ⟨0x11, "a/1"⟩ [⟨0x12, "a/2"⟩] rfl rfl rfl (by decide)).1,
    by decide⟩

/-- Claim C10: with no etherbase configured and an account manager without
wallets, the resolver returns the zero address and the error
"aaeerbase must be explicitly specified", and the service (the etherbase
field included) is left as it was. -/
theorem C10_aaeerbase_no_wallet (s : aaechain) (hunset : s.aaeerbase = 0)
    (hw : s.accountManager.Wallets = []) :
    (aaeerbase s).2.2 = (0, some "aaeerbase must be explicitly specified") ∧
      (aaeerbase s).1 = s ∧ (aaeerbase s).1.aaeerbase = 0 := by
  rw [aaeerbase_of_no_wallet s hunset hw]
  exact ⟨rfl, rfl, hunset⟩

/-- Witness for C10: the default service has no etherbase and no wallet. -/
theorem C10_aaeerbase_no_wallet_witness :
    defaultService.aaeerbase = 0 ∧
      (aaeerbase defaultService).2.2 = (0, some "aaeerbase must be explicitly specified") :=
  ⟨rfl, (C10_aaeerbase_no_wallet defaultService rfl rfl).1⟩

/-! ## Setaaeerbase -/

/-- Claim C11 as written fails at the zero address, which the resolver reads
as "not configured". After the fallback `0x11` was cached, `Setaaeerbase(0)`
followed by the resolver yields `0x11` again, not `(0, nil)`; on a service
without wallets the resolver fails after `Setaaeerbase(0)`. -/
theorem C11_counterexample :
    (aaeerbase ethashServiceA).1.aaeerbase = 0x11 ∧
      (aaeerbase (Setaaeerbase (aaeerbase ethashServiceA).1 0).1).2.2 = (0x11, none) ∧
      (aaeerbase (Setaaeerbase ethashService7 0).1).2.2 =
        (0, some "aaeerbase must be explicitly specified") := by
  decide

/-- Claim C11, amended: for every address `a` and every prior state,
`Setaaeerbase(a)` stores `a` in the etherbase field and hands `a` to the
miner; for every non-zero `a` the resolver then returns `(a, nil)` and leaves
the field at `a`, whatever was configured or cached before. -/
theorem C11_Setaaeerbase_overrides (s : aaechain) (a : Address) :
    (Setaaeerbase s a).1.aaeerbase = a ∧
      (Setaaeerbase s a).2 = [Event.minerSetaaeerbase a] ∧
      (a ≠ 0 →
        (aaeerbase (Setaaeerbase s a).1).2.2 = (a, none) ∧
        (aaeerbase (Setaaeerbase s a).1).1.aaeerbase = a) := by
  refine ⟨rfl, rfl, fun hne => ?_⟩
  have h : (Setaaeerbase s a).1.aaeerbase ≠ 0 := hne
  rw [aaeerbase_of_set _ h]
  exact ⟨rfl, rfl⟩

/-- Witness for C11: the cached fallback `0x11` is overridden by `0x2a`. -/
theorem C11_Setaaeerbase_overrides_witness :
    (aaeerbase ethashServiceA).1.aaeerbase = 0x11 ∧
      (aaeerbase (Setaaeerbase (aaeerbase ethashServiceA).1 0x2a).1).2.2 = (0x2a, none) :=
  ⟨by decide,
    ((C11_Setaaeerbase_overrides (aaeerbase ethashServiceA).1 0x2a).2.2 (by decide)).1⟩

/-! ## CreateConsensusEngine -/

/-- Claim C12: when the chain configuration carries a clique schedule,
`CreateConsensusEngine` returns the clique engine built from that schedule
and the database, for every proof-of-work configuration and every context:
the result does not depend on them, and no mode warning is logged. -/
theorem C12_CreateConsensusEngine_clique (ctx ctx2 : ServiceContext)
    (config config2 : EthashConfig) (chainConfig : ChainConfig) (db : Database)
    (clique : CliqueConfig) (h : chainConfig.Clique = some clique) :
    CreateConsensusEngine ctx config chainConfig db = ([], ConsensusEngine.clique clique db) ∧
      CreateConsensusEngine ctx config chainConfig db =
        CreateConsensusEngine ctx2 config2 chainConfig db := by
  have h1 : ∀ (c : ServiceContext) (e : EthashConfig),
      CreateConsensusEngine c e chainConfig db = ([], ConsensusEngine.clique clique db) := by
    intro c e
    unfold CreateConsensusEngine
    rw [h]
  exact ⟨h1 ctx config, (h1 ctx config).trans (h1 ctx2 config2).symm⟩

/-- Witness for C12: a schedule of period 15 and epoch 30000 with the mode set
to fake still gives the clique engine. -/
theorem C12_CreateConsensusEngine_clique_witness :
    (CreateConsensusEngine testContext { DefaultConfig.aaeash with PowMode := ModeFake }
      { ChainId := 4, Clique := some ⟨15, 30000⟩ } defaultService.chainDb).2 =
      ConsensusEngine.clique ⟨15, 30000⟩ defaultService.chainDb :=
  congrArg Prod.snd
    (C12_CreateConsensusEngine_clique testContext testContext
      { DefaultConfig.aaeash with PowMode := ModeFake } DefaultConfig.aaeash
      { ChainId := 4, Clique := some ⟨15, 30000⟩ } defaultService.chainDb ⟨15, 30000⟩ rfl).1

/-- Claim C13: without a clique schedule, `CreateConsensusEngine` gives the
faker engine for `ModeFake`, the tester engine for `ModeTest`, the shared
engine for `ModeShared`, and for every other mode value the engine
`ethash.New` builds from the six configured cache and dataset settings (the
cache directory resolved through the context), with its thread count set to
`-1`. Being a total function, it gives an engine on every input. -/
theorem C13_CreateConsensusEngine_ethash (ctx : ServiceContext) (config : EthashConfig)
    (chainConfig : ChainConfig) (db : Database) (h : chainConfig.Clique = none) :
    (config.PowMode = ModeFake →
        (CreateConsensusEngine ctx config chainConfig db).2 = ConsensusEngine.ethashFaker) ∧
      (config.PowMode = ModeTest →
        (CreateConsensusEngine ctx config chainConfig db).2 = ConsensusEngine.ethashTester) ∧
      (config.PowMode = ModeShared →
        (CreateConsensusEngine ctx config chainConfig db).2 = ConsensusEngine.ethashShared) ∧
      (config.PowMode ≠ ModeFake → config.PowMode ≠ ModeTest → config.PowMode ≠ ModeShared →
        (CreateConsensusEngine ctx config chainConfig db).2 =
          ConsensusEngine.ethash
            { CacheDir := ctx.ResolvePath config.CacheDir
              CachesInMem := config.CachesInMem
              CachesOnDisk := config.CachesOnDisk
              DatasetDir := config.DatasetDir
              DatasetsInMem := config.DatasetsInMem
              DatasetsOnDisk := config.DatasetsOnDisk
              PowMode := 0 } (-1)) := by
  refine ⟨fun h1 => ?_, fun h1 => ?_, fun h1 => ?_, fun h1 h2 h3 => ?_⟩
  · simp [CreateConsensusEngine, h, h1]
  · simp [CreateConsensusEngine, h, h1, ModeTest, ModeFake]
  · simp [CreateConsensusEngine, h, h1, ModeShared, ModeTest, ModeFake]
  · simp [CreateConsensusEngine, h, h1, h2, h3]

/-- Witness for C13: the four named modes and the unnamed value 9 on the
default proof-of-work configuration. -/
theorem C13_CreateConsensusEngine_ethash_witness :
    (CreateConsensusEngine testContext { DefaultConfig.aaeash with PowMode := ModeTest }
        defaultService.chainConfig defaultService.chainDb).2 = ConsensusEngine.ethashTester ∧
      (CreateConsensusEngine testContext { DefaultConfig.aaeash with PowMode := 9 }
        defaultService.chainConfig defaultService.chainDb).2 =
        ConsensusEngine.ethash
          { CacheDir := "/data/ethash", CachesInMem := 2, CachesOnDisk := 3, DatasetDir := "",
            DatasetsInMem := 1, DatasetsOnDisk := 2, PowMode := 0 } (-1) :=
  ⟨(C13_CreateConsensusEngine_ethash testContext { DefaultConfig.aaeash with PowMode := ModeTest }
      defaultService.chainConfig defaultService.chainDb rfl).2.1 rfl,
    (C13_CreateConsensusEngine_ethash testContext { DefaultConfig.aaeash with PowMode := 9 }
      defaultService.chainConfig defaultService.chainDb rfl).2.2.2
      (by decide) (by decide) (by decide)⟩

/-! ## makeExtraData -/

/-- Claim C17: extra data longer than `params.MaximumExtraDataSize` is
dropped whole: `makeExtraData` returns the empty byte string (and logs the
warning), never a shortened copy of the input. -/
theorem C17_makeExtraData_drops (w : World) (extra : Bytes)
    (h : extra.length > w.MaximumExtraDataSize) :
    (makeExtraData w extra).2 = [] ∧
      (makeExtraData w extra).1 = [Event.logWarn "Miner extra data exceed limit"] := by
  have h0 : extra.length ≠ 0 := by omega
  simp [makeExtraData, h0, h]

/-- Witness for C17: 33 bytes against a limit of 32. -/
theorem C17_makeExtraData_drops_witness :
    (List.replicate 33 (7 : Fin 256)).length > freshWorld.MaximumExtraDataSize ∧
      (makeExtraData freshWorld (List.replicate 33 7)).2 = [] :=
  ⟨by decide, (C17_makeExtraData_drops freshWorld (List.replicate 33 7) (by decide)).1⟩

/-! ## Stop and the lifecycle -/

/-- `Stop` on a started service that no `Stop` has touched: the full teardown. -/
theorem Stop_of_running (s : aaechain) (h1 : s.syncStarted = true)
    (h2 : s.indexerClosed = false) (h3 : s.upgradeCancelled = false)
    (h4 : s.shutdownChan = Chan.opened) :
    (Stop s).2 = (specTeardown s.stopDbUpgrade s.lesServer, Outcome.returned none) ∧
      (Stop s).1.shutdownChan = Chan.closed ∧ (Stop s).1.indexerClosed = true := by
  cases hc : s.stopDbUpgrade <;> cases hl : s.lesServer <;>
    simp [Stop, cancelUpgradeEnd, indexerCloseEnd, protocolManagerStopEnd, h1, h2, h3, h4, hc,
      hl, specTeardown]

/-- `Stop` on a service never started that no `Stop` has touched: the panic
in the sync manager. -/
theorem Stop_of_unstarted (s : aaechain) (h1 : s.syncStarted = false)
    (h2 : s.indexerClosed = false) (h3 : s.upgradeCancelled = false) :
    (Stop s).2 =
        ((if s.stopDbUpgrade then [Event.stopDbUpgrade] else []) ++
          [Event.bloomIndexerClose, Event.blockchainStop, Event.protocolManagerStop],
          Outcome.panicked "runtime error: invalid memory address or nil pointer dereference") ∧
      (Stop s).1.indexerClosed = true := by
  cases hc : s.stopDbUpgrade <;>
    simp [Stop, cancelUpgradeEnd, indexerCloseEnd, protocolManagerStopEnd, h1, h2, h3, hc]

/-- `Stop` on a service whose bloom indexer is closed already blocks before
the store and the channel are touched. -/
theorem Stop_of_indexerClosed (s : aaechain) (h : s.indexerClosed = true) :
    (∃ c, (Stop s).2.2 = Outcome.blocked c) ∧ Event.chainDbClose ∉ (Stop s).2.1 ∧
      Event.closeShutdownChan ∉ (Stop s).2.1 ∧ (Stop s).1.indexerClosed = true := by
  cases hc : s.stopDbUpgrade <;> cases hu : s.upgradeCancelled <;>
    simp [Stop, cancelUpgradeEnd, indexerCloseEnd, h, hc, hu]

/-- The spec's teardown list closes the store once and the channel once. -/
theorem specTeardown_counts (c l : Bool) :
    List.count Event.chainDbClose (specTeardown c l) = 1 ∧
      List.count Event.closeShutdownChan (specTeardown c l) = 1 := by
  cases c <;> cases l <;> decide

/-- The closes the teardown may still make on a service: none once the bloom
indexer is closed, one of each before. What a `Stop` makes and what it leaves
to later calls stays within that. -/
theorem Stop_budget (s : aaechain) :
    List.count Event.chainDbClose (Stop s).2.1 +
        (if (Stop s).1.indexerClosed = true then 0 else 1) ≤
        (if s.indexerClosed = true then 0 else 1) ∧
      List.count Event.closeShutdownChan (Stop s).2.1 +
        (if (Stop s).1.indexerClosed = true then 0 else 1) ≤
        (if s.indexerClosed = true then 0 else 1) := by
  cases hi : s.indexerClosed with
  | true =>
    obtain ⟨_, h1, h2, h3⟩ := Stop_of_indexerClosed s hi
    simp [h3, List.count_eq_zero_of_not_mem h1, List.count_eq_zero_of_not_mem h2]
  | false =>
    cases hc : s.stopDbUpgrade <;> cases hu : s.upgradeCancelled <;>
      cases hs : s.syncStarted <;> cases hl : s.lesServer <;> cases hch : s.shutdownChan <;>
      simp [Stop, cancelUpgradeEnd, indexerCloseEnd, protocolManagerStopEnd, hi, hc, hu, hs, hl,
        hch]

/-- The resolver touches neither channel nor teardown flags. -/
theorem aaeerbase_flags (s : aaechain) :
    (aaeerbase s).1.shutdownChan = s.shutdownChan ∧
      (aaeerbase s).1.indexerClosed = s.indexerClosed := by
  rcases aaeerbase_cases s with h | h | ⟨a, h⟩ <;> rw [h] <;> exact ⟨rfl, rfl⟩

/-- `Start` closes neither store nor channel and leaves the bloom indexer as
it is. -/
theorem Start_no_close (s : aaechain) (srvr : Server) :
    List.count Event.chainDbClose (Start s srvr).2.1 = 0 ∧
      List.count Event.closeShutdownChan (Start s srvr).2.1 = 0 ∧
      (Start s srvr).1.indexerClosed = s.indexerClosed := by
  by_cases h1 : s.config.LightServ > 0 <;> by_cases h2 : s.config.LightPeers ≥ srvr.MaxPeers <;>
    cases hl : s.lesServer <;> simp [Start, h1, h2, hl]

/-- A successful `Start` leaves the sync manager started and the rest of the
teardown state as it was. -/
theorem Start_flags (s : aaechain) (srvr : Server) (h : (Start s srvr).2.2 = none) :
    (Start s srvr).1.syncStarted = true ∧
      (Start s srvr).1.indexerClosed = s.indexerClosed ∧
      (Start s srvr).1.upgradeCancelled = s.upgradeCancelled ∧
      (Start s srvr).1.shutdownChan = s.shutdownChan ∧
      (Start s srvr).1.stopDbUpgrade = s.stopDbUpgrade ∧
      (Start s srvr).1.lesServer = s.lesServer := by
  by_cases h1 : s.config.LightServ > 0 <;> by_cases h2 : s.config.LightPeers ≥ srvr.MaxPeers <;>
    cases hl : s.lesServer <;> simp [Start, h1, h2, hl] at h ⊢

/-- `StartMining` closes neither store nor channel and leaves the bloom
indexer as it is. -/
theorem StartMining_no_close (s : aaechain) (local_ : Bool) :
    List.count Event.chainDbClose (StartMining s local_).2.1 = 0 ∧
      List.count Event.closeShutdownChan (StartMining s local_).2.1 = 0 ∧
      (StartMining s local_).1.indexerClosed = s.indexerClosed := by
  have hch := (aaeerbase_flags s).2
  have hev := aaeerbase_events s
  rcases hr : aaeerbase s with ⟨s1, ev1, eb, e⟩
  rw [hr] at hch hev
  simp only at hch hev
  have hc1 : List.count Event.chainDbClose ev1 = 0 := by
    rcases hev with h | h <;> simp [h]
  have hc2 : List.count Event.closeShutdownChan ev1 = 0 := by
    rcases hev with h | h <;> simp [h]
  cases e with
  | some m =>
    rw [StartMining_of_unresolved s s1 local_ ev1 eb m hr]
    simp [hc1, hc2, hch]
  | none =>
    cases hen : s1.engine with
    | ethash =>
      rw [StartMining_of_ethash s s1 local_ ev1 eb hr (by rw [hen]; decide)]
      cases local_ <;> simp [hc1, hc2, hch]
    | clique =>
      rcases hf : s1.accountManager.Find ⟨eb, ""⟩ with ⟨wallet, err⟩
      by_cases hbad : wallet = none ∨ err ≠ none
      · rw [StartMining_of_no_signer s s1 local_ ev1 eb wallet err hr hen hf hbad]
        simp [hc1, hc2, hch]
      · have hw : wallet ≠ none := fun h => hbad (Or.inl h)
        have he : err = none := by
          by_contra h
          exact hbad (Or.inr h)
        obtain ⟨w, rfl⟩ := Option.ne_none_iff_exists'.mp hw
        subst he
        rw [StartMining_of_signer s s1 local_ ev1 eb w hr hen hf]
        cases local_ <;> simp [hc1, hc2, hch]

/-- Every lifecycle call stays within the budget of closes. -/
theorem step_budget (s : aaechain) (c : Call) :
    List.count Event.chainDbClose (step s c).2.1 +
        (if (step s c).1.indexerClosed = true then 0 else 1) ≤
        (if s.indexerClosed = true then 0 else 1) ∧
      List.count Event.closeShutdownChan (step s c).2.1 +
        (if (step s c).1.indexerClosed = true then 0 else 1) ≤
        (if s.indexerClosed = true then 0 else 1) := by
  cases c with
  | Stop =>
    have h := Stop_budget s
    rcases hs : Stop s with ⟨s1, ev, o⟩
    rw [hs] at h
    cases o <;> simpa [step, hs] using h
  | Start srvr =>
    obtain ⟨h1, h2, h3⟩ := Start_no_close s srvr
    simp [step, h1, h2, h3]
  | StartMining l =>
    obtain ⟨h1, h2, h3⟩ := StartMining_no_close s l
    simp [step, h1, h2, h3]
  | Setaaeerbase a => simp [step, Setaaeerbase]

/-- Over any sequence of lifecycle calls the store and the shutdown channel
are each closed at most as often as the budget of the first service allows. -/
theorem run_budget (calls : List Call) :
    ∀ s : aaechain,
      List.count Event.chainDbClose (run s calls).2 ≤ (if s.indexerClosed = true then 0 else 1) ∧
      List.count Event.closeShutdownChan (run s calls).2 ≤
        (if s.indexerClosed = true then 0 else 1) := by
  induction calls with
  | nil => intro s; simp [run]
  | cons c cs ih =>
    intro s
    obtain ⟨h1, h2⟩ := step_budget s c
    obtain ⟨i1, i2⟩ := ih (step s c).1
    simp only [run, List.count_append]
    constructor <;> omega

/-! ## New -/

/-- `CreateDB` only opens the store and, on a LevelDB store, sets up its meters. -/
theorem CreateDB_events (ctx : ServiceContext) (config : Config) (name : String) :
    ∀ e ∈ (CreateDB ctx config name).1,
      (∃ n c h, e = Event.openDatabase n c h) ∨ ∃ l, e = Event.dbMeter l := by
  unfold CreateDB
  rcases ctx.OpenDatabase name config.DatabaseCache config.DatabaseHandles with e | db
  · simp
  · cases h : db.isLDB <;> simp [h]

/-- `CreateConsensusEngine` makes no call but the mode warning. -/
theorem CreateConsensusEngine_events (ctx : ServiceContext) (config : EthashConfig)
    (chainConfig : ChainConfig) (db : Database) :
    ∀ e ∈ (CreateConsensusEngine ctx config chainConfig db).1, ∃ m, e = Event.logWarn m := by
  unfold CreateConsensusEngine
  cases chainConfig.Clique with
  | some c => simp
  | none =>
    simp only
    split_ifs <;> simp

/-- `makeExtraData` makes no call but the size warning. -/
theorem makeExtraData_events (w : World) (extra : Bytes) :
    ∀ e ∈ (makeExtraData w extra).1, ∃ m, e = Event.logWarn m := by
  unfold makeExtraData
  simp only
  split_ifs <;> simp

/-- A filter that rejects every element of a list leaves nothing. -/
theorem filterMap_nil_of_forall {α β : Type} (f : α → Option β) (l : List α)
    (h : ∀ e ∈ l, f e = none) : l.filterMap f = [] := by
  induction l with
  | nil => rfl
  | cons a l ih =>
    have ha : f a = none := h a (List.mem_cons_self a l)
    simp [List.filterMap_cons, ha, ih (fun e he => h e (List.mem_cons_of_mem a he))]

/-- A filter that rejects every element of a list leaves nothing. -/
theorem filter_nil_of_forall {α : Type} (p : α → Bool) (l : List α)
    (h : ∀ e ∈ l, p e = false) : l.filter p = [] := by
  induction l with
  | nil => rfl
  | cons a l ih =>
    have ha : p a = false := h a (List.mem_cons_self a l)
    simp [List.filter_cons, ha, ih (fun e he => h e (List.mem_cons_of_mem a he))]

/-- The calls of `CreateDB` are invisible to the four observers. -/
theorem CreateDB_observed (ctx : ServiceContext) (config : Config) (name : String) :
    versionWrites (CreateDB ctx config name).1 = [] ∧
      versionReads (CreateDB ctx config name).1 = 0 ∧
      chainSteps (CreateDB ctx config name).1 = [] ∧
      oracleParams (CreateDB ctx config name).1 = [] := by
  have h := CreateDB_events ctx config name
  refine ⟨filterMap_nil_of_forall _ _ ?_, ?_, filter_nil_of_forall _ _ ?_,
    filterMap_nil_of_forall _ _ ?_⟩
  · intro e he
    rcases h e he with ⟨n, c, k, rfl⟩ | ⟨l, rfl⟩ <;> rfl
  · unfold versionReads
    rw [filter_nil_of_forall]
    · rfl
    · intro e he
      rcases h e he with ⟨n, c, k, rfl⟩ | ⟨l, rfl⟩ <;> rfl
  · intro e he
    rcases h e he with ⟨n, c, k, rfl⟩ | ⟨l, rfl⟩ <;> rfl
  · intro e he
    rcases h e he with ⟨n, c, k, rfl⟩ | ⟨l, rfl⟩ <;> rfl

/-- A list of warnings is invisible to the four observers. -/
theorem warnings_observed (l : List Event) (h : ∀ e ∈ l, ∃ m, e = Event.logWarn m) :
    versionWrites l = [] ∧ versionReads l = 0 ∧ chainSteps l = [] ∧ oracleParams l = [] := by
  refine ⟨filterMap_nil_of_forall _ _ ?_, ?_, filter_nil_of_forall _ _ ?_,
    filterMap_nil_of_forall _ _ ?_⟩
  · intro e he
    obtain ⟨m, rfl⟩ := h e he
    rfl
  · unfold versionReads
    rw [filter_nil_of_forall]
    · rfl
    · intro e he
      obtain ⟨m, rfl⟩ := h e he
      rfl
  · intro e he
    obtain ⟨m, rfl⟩ := h e he
    rfl
  · intro e he
    obtain ⟨m, rfl⟩ := h e he
    rfl

/-- The observers distribute over concatenation. -/
theorem observed_append (a b : List Event) :
    versionWrites (a ++ b) = versionWrites a ++ versionWrites b ∧
      versionReads (a ++ b) = versionReads a + versionReads b ∧
      chainSteps (a ++ b) = chainSteps a ++ chainSteps b ∧
      oracleParams (a ++ b) = oracleParams a ++ oracleParams b := by
  simp [versionWrites, versionReads, chainSteps, oracleParams]

/-- `New` on the light sync mode. -/
theorem New_of_lightSync (w : World) (ctx : ServiceContext) (config : Config)
    (h : config.SyncMode = LightSync) :
    New w ctx config = ([], none, some NewError.lightSync) := by
  simp [New, h]

/-- `New` on an unrecognised sync mode. -/
theorem New_of_invalid (w : World) (ctx : ServiceContext) (config : Config)
    (h : SyncMode.IsValid config.SyncMode = false) :
    New w ctx config = ([], none, some (NewError.invalidSyncMode config.SyncMode)) ∨
      New w ctx config = ([], none, some NewError.lightSync) := by
  by_cases h1 : config.SyncMode = LightSync
  · exact Or.inr (New_of_lightSync w ctx config h1)
  · left
    simp [New, h1, h]

/-- The second half of `New` when `core.NewBlockChain` fails. -/
theorem NewFromBlockChain_of_chain_error (w : World) (ctx : ServiceContext) (config : Config)
    (chainDb : Database) (g : Option GenesisError) (engine : ConsensusEngine)
    (ev5 : List Event) (e : String) (h : w.blockChainErr = some e) :
    NewFromBlockChain w ctx config chainDb g engine ev5 =
      (ev5 ++ [Event.newBlockChain chainDb config.NoPruning config.TrieCache config.TrieTimeout
        w.genesisConfig engine config.EnablePreimageRecording], none,
        some (NewError.blockChain e)) := by
  simp [NewFromBlockChain, h]

/-- The error of the second half of `New` is nil or comes from
`core.NewBlockChain` or `NewProtocolManager`. -/
theorem NewFromBlockChain_error (w : World) (ctx : ServiceContext) (config : Config)
    (chainDb : Database) (g : Option GenesisError) (engine : ConsensusEngine)
    (ev5 : List Event) :
    (NewFromBlockChain w ctx config chainDb g engine ev5).2.2 = none ∨
      (∃ e, (NewFromBlockChain w ctx config chainDb g engine ev5).2.2 =
        some (NewError.blockChain e)) ∨
      ∃ e, (NewFromBlockChain w ctx config chainDb g engine ev5).2.2 =
        some (NewError.protocolManager e) := by
  cases hb : w.blockChainErr with
  | some e => right; left; exact ⟨e, by simp [NewFromBlockChain, hb]⟩
  | none =>
    cases hp : w.protocolManager with
    | error e => right; right; exact ⟨e, by simp [NewFromBlockChain, hb, hp]⟩
    | ok pm => left; simp [NewFromBlockChain, hb, hp]

/-- The second half of `New` neither reads nor writes the schema version. -/
theorem NewFromBlockChain_version (w : World) (ctx : ServiceContext) (config : Config)
    (chainDb : Database) (g : Option GenesisError) (engine : ConsensusEngine)
    (ev5 : List Event) :
    versionWrites (NewFromBlockChain w ctx config chainDb g engine ev5).1 = versionWrites ev5 ∧
      versionReads (NewFromBlockChain w ctx config chainDb g engine ev5).1 = versionReads ev5 := by
  have hx := warnings_observed _ (makeExtraData_events w config.ExtraData)
  cases hb : w.blockChainErr with
  | some e => simp [NewFromBlockChain, hb, versionWrites, versionReads]
  | none =>
    cases hp : w.protocolManager with
    | error e =>
      rcases g with _ | ⟨r, m⟩ | m <;>
        simp [NewFromBlockChain, hb, hp, versionWrites, versionReads]
    | ok pm =>
      have h1 := hx.1
      have h2 := hx.2.1
      simp only [versionWrites, versionReads] at h1 h2
      rcases g with _ | ⟨r, m⟩ | m <;>
        simp [NewFromBlockChain, hb, hp, versionWrites, versionReads, h1, h2]

/-- The chain steps of the second half of `New` once `core.NewBlockChain`
succeeded: the creation, then, on a compatibility error only, the rewind and
the configuration write. -/
theorem NewFromBlockChain_chainSteps (w : World) (ctx : ServiceContext) (config : Config)
    (chainDb : Database) (g : Option GenesisError) (engine : ConsensusEngine)
    (ev5 : List Event) (hb : w.blockChainErr = none) :
    chainSteps (NewFromBlockChain w ctx config chainDb g engine ev5).1 =
      chainSteps ev5 ++
        Event.newBlockChain chainDb config.NoPruning config.TrieCache config.TrieTimeout
          w.genesisConfig engine config.EnablePreimageRecording ::
        (match g with
          | some (GenesisError.compat rewindTo _) =>
            [Event.setHead rewindTo, Event.writeChainConfig chainDb w.genesisHash w.genesisConfig]
          | _ => []) := by
  have hx := (warnings_observed _ (makeExtraData_events w config.ExtraData)).2.2.1
  simp only [chainSteps] at hx
  cases hp : w.protocolManager with
  | error e =>
    rcases g with _ | ⟨r, m⟩ | m <;> simp [NewFromBlockChain, hb, hp, chainSteps]
  | ok pm =>
    rcases g with _ | ⟨r, m⟩ | m <;> simp [NewFromBlockChain, hb, hp, chainSteps, hx]

/-- The service the second half of `New` returns, and the one oracle it builds. -/
theorem NewFromBlockChain_service (w : World) (ctx : ServiceContext) (config : Config)
    (chainDb : Database) (g : Option GenesisError) (engine : ConsensusEngine)
    (ev5 : List Event) (s : aaechain)
    (h : (NewFromBlockChain w ctx config chainDb g engine ev5).2.1 = some s) :
    s.shutdownChan = Chan.opened ∧ s.lesServer = false ∧
      s.gpo = some (if config.GPO.Default = none then
        { config.GPO with Default := config.GasPrice } else config.GPO) ∧
      oracleParams (NewFromBlockChain w ctx config chainDb g engine ev5).1 =
        oracleParams ev5 ++ [if config.GPO.Default = none then
          { config.GPO with Default := config.GasPrice } else config.GPO] := by
  have hx := (warnings_observed _ (makeExtraData_events w config.ExtraData)).2.2.2
  simp only [oracleParams] at hx
  cases hb : w.blockChainErr with
  | some e => simp [NewFromBlockChain, hb] at h
  | none =>
    cases hp : w.protocolManager with
    | error e => simp [NewFromBlockChain, hb, hp] at h
    | ok pm =>
      simp only [NewFromBlockChain, hb, hp, Option.some.injEq] at h
      subst h
      refine ⟨rfl, rfl, rfl, ?_⟩
      rcases g with _ | ⟨r, m⟩ | m <;> simp [NewFromBlockChain, hb, hp, oracleParams, hx]

/-- `New` from the version check on, once the sync mode passed, the store
opened and the genesis error is nil or a compatibility error: the calls made
up to there are invisible to the observers, and what follows is the version
check and the second half. -/
theorem New_after_genesis (w : World) (ctx : ServiceContext) (config : Config)
    (ev1 : List Event) (chainDb : Database)
    (hlight : config.SyncMode ≠ LightSync) (hvalid : SyncMode.IsValid config.SyncMode = true)
    (hdb : CreateDB ctx config "chaindata" = (ev1, Except.ok chainDb))
    (hgen : ∀ m, w.genesisErr ≠ some (GenesisError.other m)) :
    ∃ ev4, versionWrites ev4 = [] ∧ versionReads ev4 = 0 ∧ chainSteps ev4 = [] ∧
      oracleParams ev4 = [] ∧
      New w ctx config =
        if config.SkipBcVersionCheck = true then
          NewFromBlockChain w ctx config chainDb w.genesisErr
            (CreateConsensusEngine ctx config.aaeash w.genesisConfig chainDb).2 ev4
        else if w.storedVersion ≠ w.BlockChainVersion ∧ w.storedVersion ≠ 0 then
          (ev4 ++ [Event.getBlockChainVersion chainDb], none,
            some (NewError.versionMismatch w.storedVersion w.BlockChainVersion))
        else
          NewFromBlockChain w ctx config chainDb w.genesisErr
            (CreateConsensusEngine ctx config.aaeash w.genesisConfig chainDb).2
            (ev4 ++ [Event.getBlockChainVersion chainDb,
              Event.writeBlockChainVersion chainDb w.BlockChainVersion]) := by
  have hd := CreateDB_observed ctx config "chaindata"
  rw [hdb] at hd
  simp only at hd
  have hc := warnings_observed _
    (CreateConsensusEngine_events ctx config.aaeash w.genesisConfig chainDb)
  refine ⟨ev1 ++
    [Event.upgradeDeduplicateData chainDb, Event.setupGenesisBlock chainDb config.Genesis] ++
    [Event.logInfo "Initialised chain configuration"] ++
    (CreateConsensusEngine ctx config.aaeash w.genesisConfig chainDb).1 ++
    [Event.newBloomIndexer chainDb, Event.logInfo "Initialising aaechain protocol"],
    ?_, ?_, ?_, ?_, ?_⟩
  · simp only [(observed_append _ _).1, hd.1, hc.1]
    simp [versionWrites]
  · simp only [(observed_append _ _).2.1, hd.2.1, hc.2.1]
    simp [versionReads]
  · simp only [(observed_append _ _).2.2.1, hd.2.2.1, hc.2.2.1]
    simp [chainSteps]
  · simp only [(observed_append _ _).2.2.2, hd.2.2.2, hc.2.2.2]
    simp [oracleParams]
  · rcases hg : w.genesisErr with _ | ⟨r, m⟩ | m
    · cases hs : config.SkipBcVersionCheck <;> simp [New, hlight, hvalid, hdb, hg, hs]
    · cases hs : config.SkipBcVersionCheck <;> simp [New, hlight, hvalid, hdb, hg, hs]
    · exact absurd hg (hgen m)

/-- A service returned by `New` was built by its second half. -/
theorem New_service_from (w : World) (ctx : ServiceContext) (config : Config) (s : aaechain)
    (h : (New w ctx config).2.1 = some s) :
    ∃ chainDb g engine ev5,
      New w ctx config = NewFromBlockChain w ctx config chainDb g engine ev5 := by
  by_cases hlight : config.SyncMode = LightSync
  · simp [New, hlight] at h
  cases hvalid : SyncMode.IsValid config.SyncMode with
  | false => simp [New, hlight, hvalid] at h
  | true =>
    rcases hdb : CreateDB ctx config "chaindata" with ⟨ev1, e | chainDb⟩
    · simp [New, hlight, hvalid, hdb] at h
    · by_cases hgen : ∀ m, w.genesisErr ≠ some (GenesisError.other m)
      · obtain ⟨ev4, _, _, _, _, hn⟩ := New_after_genesis w ctx config ev1 chainDb hlight hvalid
          hdb hgen
        by_cases hs : config.SkipBcVersionCheck = true
        · exact ⟨chainDb, _, _, ev4, by rw [hn, if_pos hs]⟩
        · by_cases hm : w.storedVersion ≠ w.BlockChainVersion ∧ w.storedVersion ≠ 0
          · rw [hn, if_neg hs, if_pos hm] at h
            simp at h
          · exact ⟨chainDb, _, _, _, by rw [hn, if_neg hs, if_neg hm]⟩
      · push_neg at hgen
        obtain ⟨m, hg⟩ := hgen
        simp [New, hlight, hvalid, hdb, hg] at h


/-- Claim C14: on a sync mode that is not recognised or is `LightSync`, `New`
returns an error and no service, and has made no call at all by then: the
store is not opened, the migration pass is not launched, no subsystem is
built. -/
theorem C14_New_sync_mode (w : World) (ctx : ServiceContext) (config : Config)
    (h : SyncMode.IsValid config.SyncMode = false ∨ config.SyncMode = LightSync) :
    (New w ctx config).1 = [] ∧ (New w ctx config).2.1 = none ∧
      (New w ctx config).2.2 =
        some (if config.SyncMode = LightSync then NewError.lightSync
          else NewError.invalidSyncMode config.SyncMode) := by
  by_cases hl : config.SyncMode = LightSync
  · rw [New_of_lightSync w ctx config hl, if_pos hl]
    exact ⟨rfl, rfl, rfl⟩
  · rcases h with h | h
    · rcases New_of_invalid w ctx config h with e | e
      · rw [e, if_neg hl]
        exact ⟨rfl, rfl, rfl⟩
      · simp [New, hl, h]
    · exact absurd h hl

/-- Witness for C14: the mode value 7, and `LightSync`. -/
theorem C14_New_sync_mode_witness :
    SyncMode.IsValid badModeConfig.SyncMode = false ∧
      (New freshWorld testContext badModeConfig).1 = [] ∧
      (New freshWorld testContext badModeConfig).2.2 = some (NewError.invalidSyncMode 7) ∧
      (New freshWorld testContext { DefaultConfig with SyncMode := LightSync }).2.2 =
        some NewError.lightSync :=
  ⟨by decide,
    (C14_New_sync_mode freshWorld testContext badModeConfig (Or.inl (by decide))).1,
    (C14_New_sync_mode freshWorld testContext badModeConfig (Or.inl (by decide))).2.2,
    (C14_New_sync_mode freshWorld testContext { DefaultConfig with SyncMode := LightSync }
      (Or.inr rfl)).2.2⟩

/-- Claim C15: once `New` has passed the sync-mode check, opened the store
and got past the genesis error, then with the version check not skipped it
fails with the version-mismatch error exactly when the stored version is
neither `core.BlockChainVersion` nor 0, and then returns no service and has
written neither version nor chain configuration; otherwise it writes
`core.BlockChainVersion`, once. With the check skipped it never fails with
the version-mismatch error and neither reads nor writes the version. -/
theorem C15_New_version_check (w : World) (ctx : ServiceContext) (config : Config)
    (ev1 : List Event) (chainDb : Database)
    (hlight : config.SyncMode ≠ LightSync) (hvalid : SyncMode.IsValid config.SyncMode = true)
    (hdb : CreateDB ctx config "chaindata" = (ev1, Except.ok chainDb))
    (hgen : ∀ m, w.genesisErr ≠ some (GenesisError.other m)) :
    (config.SkipBcVersionCheck = false →
        ((∃ a b, (New w ctx config).2.2 = some (NewError.versionMismatch a b)) ↔
          (w.storedVersion ≠ w.BlockChainVersion ∧ w.storedVersion ≠ 0)) ∧
        ((w.storedVersion ≠ w.BlockChainVersion ∧ w.storedVersion ≠ 0) →
          (New w ctx config).2 =
            (none, some (NewError.versionMismatch w.storedVersion w.BlockChainVersion)) ∧
          versionWrites (New w ctx config).1 = [] ∧ chainSteps (New w ctx config).1 = []) ∧
        (¬ (w.storedVersion ≠ w.BlockChainVersion ∧ w.storedVersion ≠ 0) →
          versionWrites (New w ctx config).1 = [w.BlockChainVersion])) ∧
      (config.SkipBcVersionCheck = true →
        (∀ a b, (New w ctx config).2.2 ≠ some (NewError.versionMismatch a b)) ∧
        versionWrites (New w ctx config).1 = [] ∧ versionReads (New w ctx config).1 = 0) := by
  obtain ⟨ev4, hw, hr, hc, _, hn⟩ :=
    New_after_genesis w ctx config ev1 chainDb hlight hvalid hdb hgen
  have hne : ∀ ev5 a b,
      (NewFromBlockChain w ctx config chainDb w.genesisErr
        (CreateConsensusEngine ctx config.aaeash w.genesisConfig chainDb).2 ev5).2.2 ≠
        some (NewError.versionMismatch a b) := by
    intro ev5 a b
    rcases NewFromBlockChain_error w ctx config chainDb w.genesisErr
      (CreateConsensusEngine ctx config.aaeash w.genesisConfig chainDb).2 ev5
      with h | ⟨e, h⟩ | ⟨e, h⟩ <;> rw [h] <;> simp
  constructor
  · intro hs
    have hs2 : ¬ config.SkipBcVersionCheck = true := by simp [hs]
    refine ⟨⟨?_, ?_⟩, ?_, ?_⟩
    · rintro ⟨a, b, hab⟩
      by_contra hm
      rw [hn, if_neg hs2, if_neg hm] at hab
      exact hne _ a b hab
    · intro hm
      exact ⟨_, _, by rw [hn, if_neg hs2, if_pos hm]⟩
    · intro hm
      rw [hn, if_neg hs2, if_pos hm]
      refine ⟨rfl, ?_, ?_⟩
      · rw [(observed_append _ _).1, hw]
        rfl
      · rw [(observed_append _ _).2.2.1, hc]
        rfl
    · intro hm
      rw [hn, if_neg hs2, if_neg hm, (NewFromBlockChain_version _ _ _ _ _ _ _).1,
        (observed_append _ _).1, hw]
      rfl
  · intro hs
    rw [hn, if_pos hs]
    exact ⟨hne ev4, by rw [(NewFromBlockChain_version _ _ _ _ _ _ _).1, hw],
      by rw [(NewFromBlockChain_version _ _ _ _ _ _ _).2, hr]⟩

/-- Witness for C15: a store recording version 2 against the expected 3 makes
`New` fail with nothing written; a fresh store gets version 3 written. -/
theorem C15_New_version_check_witness :
    (New staleWorld testContext DefaultConfig).2 =
        (none, some (NewError.versionMismatch 2 3)) ∧
      versionWrites (New staleWorld testContext DefaultConfig).1 = [] ∧
      versionWrites (New freshWorld testContext DefaultConfig).1 = [3] ∧
      versionWrites (New staleWorld testContext skipConfig).1 = [] :=
  ⟨(((C15_New_version_check staleWorld testContext DefaultConfig _ _ (by decide) (by decide) rfl
      (fun _ => by simp [staleWorld, freshWorld])).1 rfl).2.1 (by decide)).1,
    (((C15_New_version_check staleWorld testContext DefaultConfig _ _ (by decide) (by decide) rfl
      (fun _ => by simp [staleWorld, freshWorld])).1 rfl).2.1 (by decide)).2.1,
    ((C15_New_version_check freshWorld testContext DefaultConfig _ _ (by decide) (by decide) rfl
      (fun _ => by simp [staleWorld, freshWorld])).1 rfl).2.2 (by decide),
    ((C15_New_version_check staleWorld testContext skipConfig _ _ (by decide) (by decide) rfl
      (fun _ => by simp [staleWorld, freshWorld])).2 rfl).2.1⟩

/-- Claim C16: once the sync mode passed and the store is open, `New` aborts
with the genesis error exactly when that error is non-nil and no
compatibility error, and has then made no call after `SetupGenesisBlock`. On
a compatibility error it goes on, and whenever the chain-state manager gets
created (the version check passes and `core.NewBlockChain` succeeds) the
creation is followed by `SetHead` to the error's `RewindTo` and by the write
of the resolved chain configuration under the genesis hash. Without genesis
error there is neither rewind nor configuration write. -/
theorem C16_New_genesis_error (w : World) (ctx : ServiceContext) (config : Config)
    (ev1 : List Event) (chainDb : Database)
    (hlight : config.SyncMode ≠ LightSync) (hvalid : SyncMode.IsValid config.SyncMode = true)
    (hdb : CreateDB ctx config "chaindata" = (ev1, Except.ok chainDb)) :
    ((∃ m, (New w ctx config).2.2 = some (NewError.genesis m)) ↔
        ∃ m, w.genesisErr = some (GenesisError.other m)) ∧
      (∀ m, w.genesisErr = some (GenesisError.other m) →
        New w ctx config =
          (ev1 ++ [Event.upgradeDeduplicateData chainDb,
            Event.setupGenesisBlock chainDb config.Genesis], none, some (NewError.genesis m))) ∧
      (∀ r m, w.genesisErr = some (GenesisError.compat r m) →
        (config.SkipBcVersionCheck = true ∨ w.storedVersion = w.BlockChainVersion ∨
          w.storedVersion = 0) →
        w.blockChainErr = none →
        chainSteps (New w ctx config).1 =
          [Event.newBlockChain chainDb config.NoPruning config.TrieCache config.TrieTimeout
            w.genesisConfig (CreateConsensusEngine ctx config.aaeash w.genesisConfig chainDb).2
            config.EnablePreimageRecording,
            Event.setHead r, Event.writeChainConfig chainDb w.genesisHash w.genesisConfig]) ∧
      (w.genesisErr = none →
        (∀ n, Event.setHead n ∉ (New w ctx config).1) ∧
        (∀ d k c, Event.writeChainConfig d k c ∉ (New w ctx config).1)) := by
  have hother : ∀ m, w.genesisErr = some (GenesisError.other m) →
      New w ctx config =
        (ev1 ++ [Event.upgradeDeduplicateData chainDb,
          Event.setupGenesisBlock chainDb config.Genesis], none, some (NewError.genesis m)) := by
    intro m hg
    simp [New, hlight, hvalid, hdb, hg]
  have hrest : (∀ m, w.genesisErr ≠ some (GenesisError.other m)) →
      (∀ m, (New w ctx config).2.2 ≠ some (NewError.genesis m)) ∧
      ((config.SkipBcVersionCheck = true ∨ w.storedVersion = w.BlockChainVersion ∨
          w.storedVersion = 0) → w.blockChainErr = none →
        chainSteps (New w ctx config).1 =
          Event.newBlockChain chainDb config.NoPruning config.TrieCache config.TrieTimeout
            w.genesisConfig (CreateConsensusEngine ctx config.aaeash w.genesisConfig chainDb).2
            config.EnablePreimageRecording ::
          (match w.genesisErr with
            | some (GenesisError.compat rewindTo _) =>
              [Event.setHead rewindTo,
                Event.writeChainConfig chainDb w.genesisHash w.genesisConfig]
            | _ => [])) ∧
      (∀ e ∈ chainSteps (New w ctx config).1,
        e = Event.newBlockChain chainDb config.NoPruning config.TrieCache config.TrieTimeout
            w.genesisConfig (CreateConsensusEngine ctx config.aaeash w.genesisConfig chainDb).2
            config.EnablePreimageRecording ∨
          ∃ r m, w.genesisErr = some (GenesisError.compat r m)) := by
    intro hgen
    obtain ⟨ev4, _, _, hc, _, hn⟩ :=
      New_after_genesis w ctx config ev1 chainDb hlight hvalid hdb hgen
    have hne : ∀ ev5 m,
        (NewFromBlockChain w ctx config chainDb w.genesisErr
          (CreateConsensusEngine ctx config.aaeash w.genesisConfig chainDb).2 ev5).2.2 ≠
          some (NewError.genesis m) := by
      intro ev5 m
      rcases NewFromBlockChain_error w ctx config chainDb w.genesisErr
        (CreateConsensusEngine ctx config.aaeash w.genesisConfig chainDb).2 ev5
        with h | ⟨e, h⟩ | ⟨e, h⟩ <;> rw [h] <;> simp
    have hsteps : ∀ ev5, chainSteps ev5 = [] →
        ∀ e ∈ chainSteps (NewFromBlockChain w ctx config chainDb w.genesisErr
          (CreateConsensusEngine ctx config.aaeash w.genesisConfig chainDb).2 ev5).1,
        e = Event.newBlockChain chainDb config.NoPruning config.TrieCache config.TrieTimeout
            w.genesisConfig (CreateConsensusEngine ctx config.aaeash w.genesisConfig chainDb).2
            config.EnablePreimageRecording ∨
          ∃ r m, w.genesisErr = some (GenesisError.compat r m) := by
      intro ev5 h5 e he
      cases hb : w.blockChainErr with
      | some x =>
        rw [NewFromBlockChain_of_chain_error _ _ _ _ _ _ _ x hb, (observed_append _ _).2.2.1,
          h5] at he
        simp [chainSteps] at he
        exact Or.inl he
      | none =>
        rw [NewFromBlockChain_chainSteps _ _ _ _ _ _ _ hb, h5] at he
        rcases hg : w.genesisErr with _ | ⟨r, m⟩ | m
        · rw [hg] at he
          simp at he
          exact Or.inl he
        · exact Or.inr ⟨r, m, rfl⟩
        · exact absurd hg (hgen m)
    have h5a : chainSteps (ev4 ++ [Event.getBlockChainVersion chainDb,
        Event.writeBlockChainVersion chainDb w.BlockChainVersion]) = [] := by
      rw [(observed_append _ _).2.2.1, hc]
      rfl
    refine ⟨?_, ?_, ?_⟩
    · intro m
      rw [hn]
      split_ifs
      · exact hne _ m
      · simp
      · exact hne _ m
    · intro hpass hb
      rw [hn]
      by_cases hs : config.SkipBcVersionCheck = true
      · rw [if_pos hs, NewFromBlockChain_chainSteps _ _ _ _ _ _ _ hb, hc]
        rfl
      · have hm : ¬ (w.storedVersion ≠ w.BlockChainVersion ∧ w.storedVersion ≠ 0) := by
          rcases hpass with h | h | h
          · exact absurd h hs
          · exact fun hm => hm.1 h
          · exact fun hm => hm.2 h
        rw [if_neg hs, if_neg hm, NewFromBlockChain_chainSteps _ _ _ _ _ _ _ hb, h5a]
        rfl
    · intro e he
      rw [hn] at he
      split_ifs at he
      · exact hsteps ev4 hc e he
      · rw [(observed_append _ _).2.2.1, hc] at he
        simp [chainSteps] at he
      · exact hsteps _ h5a e he
  refine ⟨⟨?_, ?_⟩, hother, ?_, ?_⟩
  · rintro ⟨m, hm⟩
    by_contra hno
    push_neg at hno
    exact (hrest hno).1 m hm
  · rintro ⟨m, hg⟩
    exact ⟨m, by rw [hother m hg]⟩
  · intro r m hg hpass hb
    have h := (hrest (fun m2 => by rw [hg]; simp)).2.1 hpass hb
    rw [hg] at h
    exact h
  · intro hg
    have h := (hrest (fun m2 => by rw [hg]; simp)).2.2
    constructor
    · intro n hmem
      have hin : Event.setHead n ∈ chainSteps (New w ctx config).1 := by
        simp only [chainSteps, List.mem_filter]
        exact ⟨hmem, trivial⟩
      rcases h _ hin with h1 | ⟨r, m, h1⟩
      · simp at h1
      · rw [hg] at h1
        simp at h1
    · intro d k c hmem
      have hin : Event.writeChainConfig d k c ∈ chainSteps (New w ctx config).1 := by
        simp only [chainSteps, List.mem_filter]
        exact ⟨hmem, trivial⟩
      rcases h _ hin with h1 | ⟨r, m, h1⟩
      · simp at h1
      · rw [hg] at h1
        simp at h1

/-- Witness for C16: a compatibility error asking for block 5 gives creation,
rewind to 5 and the configuration write; an incompatible genesis aborts. -/
theorem C16_New_genesis_error_witness :
    chainSteps (New rewindWorld testContext DefaultConfig).1 =
        [Event.newBlockChain defaultService.chainDb false 256 300000000000
          defaultService.chainConfig
          (CreateConsensusEngine testContext DefaultConfig.aaeash rewindWorld.genesisConfig
            defaultService.chainDb).2 false,
          Event.setHead 5,
          Event.writeChainConfig defaultService.chainDb 0xd4e5 defaultService.chainConfig] ∧
      (New conflictWorld testContext DefaultConfig).2 =
        (none, some (NewError.genesis "incompatible genesis block")) :=
  ⟨(C16_New_genesis_error rewindWorld testContext DefaultConfig _ _ (by decide) (by decide)
      rfl).2.2.1 5 "mismatching fork block" rfl (Or.inr (Or.inr rfl)) rfl,
    congrArg Prod.snd
      ((C16_New_genesis_error conflictWorld testContext DefaultConfig _ _ (by decide) (by decide)
        rfl).2.1 "incompatible genesis block" rfl)⟩

/-- Claim C18 as written fails: the pool's minimum price is never looked at,
and a configured oracle default wins over `config.GasPrice`. With a gas price
of 18 gwei and a pool minimum of 50 gwei the oracle is seeded with 18 gwei;
with an oracle default of 5 configured it is seeded with 5. -/
theorem C18_counterexample :
    (pricedPoolConfig.GasPrice = some 18000000000 ∧
      pricedPoolConfig.TxPool.PriceLimit = 50000000000 ∧
      oracleParams (New freshWorld testContext pricedPoolConfig).1 =
        [{ Blocks := 20, Percentile := 60, Default := some 18000000000 }]) ∧
    (oracleDefaultConfig.GasPrice = some 18000000000 ∧
      oracleParams (New freshWorld testContext oracleDefaultConfig).1 =
        [{ Blocks := 20, Percentile := 60, Default := some 5 }]) := by
  decide

/-- Claim C18, amended: the gas-price oracle built in `New` is seeded with
the oracle's own configuration, whose default price is `config.GasPrice`
exactly when no default (`config.GPO.Default`) is configured; the pool's
minimum price does not enter. `NewOracle` is called once, and the oracle is
kept in the service returned. -/
theorem C18_New_oracle_default (w : World) (ctx : ServiceContext) (config : Config)
    (s : aaechain) (h : (New w ctx config).2.1 = some s) :
    oracleParams (New w ctx config).1 =
        [if config.GPO.Default = none then { config.GPO with Default := config.GasPrice }
          else config.GPO] ∧
      s.gpo = some (if config.GPO.Default = none then
        { config.GPO with Default := config.GasPrice } else config.GPO) ∧
      (config.GPO.Default = none →
        s.gpo = some { config.GPO with Default := config.GasPrice }) := by
  by_cases hlight : config.SyncMode = LightSync
  · simp [New, hlight] at h
  cases hvalid : SyncMode.IsValid config.SyncMode with
  | false => simp [New, hlight, hvalid] at h
  | true =>
    rcases hdb : CreateDB ctx config "chaindata" with ⟨ev1, e | chainDb⟩
    · simp [New, hlight, hvalid, hdb] at h
    · by_cases hgen : ∀ m, w.genesisErr ≠ some (GenesisError.other m)
      · obtain ⟨ev4, _, _, _, ho, hn⟩ :=
          New_after_genesis w ctx config ev1 chainDb hlight hvalid hdb hgen
        have ho2 : oracleParams (ev4 ++ [Event.getBlockChainVersion chainDb,
            Event.writeBlockChainVersion chainDb w.BlockChainVersion]) = [] := by
          rw [(observed_append _ _).2.2.2, ho]
          rfl
        by_cases hs : config.SkipBcVersionCheck = true
        · rw [hn, if_pos hs] at h ⊢
          obtain ⟨_, _, h3, h4⟩ := NewFromBlockChain_service _ _ _ _ _ _ _ s h
          rw [ho] at h4
          exact ⟨h4, h3, fun hd => by rw [h3, if_pos hd]⟩
        · by_cases hm : w.storedVersion ≠ w.BlockChainVersion ∧ w.storedVersion ≠ 0
          · rw [hn, if_neg hs, if_pos hm] at h
            simp at h
          · rw [hn, if_neg hs, if_neg hm] at h ⊢
            obtain ⟨_, _, h3, h4⟩ := NewFromBlockChain_service _ _ _ _ _ _ _ s h
            rw [ho2] at h4
            exact ⟨h4, h3, fun hd => by rw [h3, if_pos hd]⟩
      · push_neg at hgen
        obtain ⟨m, hg⟩ := hgen
        simp [New, hlight, hvalid, hdb, hg] at h

/-- Witness for C18: the default configuration seeds the oracle with its gas
price of 18 gwei. -/
theorem C18_New_oracle_default_witness :
    ∃ s, (New freshWorld testContext DefaultConfig).2.1 = some s ∧
      s.gpo = some { Blocks := 20, Percentile := 60, Default := some 18000000000 } :=
  ⟨_, rfl, (C18_New_oracle_default freshWorld testContext DefaultConfig _ rfl).2.2 rfl⟩

/-- The teardown state of the service the second half of `New` returns: the
sync manager not started, the bloom indexer open, the cancel function unused,
the shutdown channel open, no light server attached. -/
theorem NewFromBlockChain_flags (w : World) (ctx : ServiceContext) (config : Config)
    (chainDb : Database) (g : Option GenesisError) (engine : ConsensusEngine)
    (ev5 : List Event) (s : aaechain)
    (h : (NewFromBlockChain w ctx config chainDb g engine ev5).2.1 = some s) :
    s.syncStarted = false ∧ s.indexerClosed = false ∧ s.upgradeCancelled = false ∧
      s.shutdownChan = Chan.opened ∧ s.lesServer = false := by
  cases hb : w.blockChainErr with
  | some e => simp [NewFromBlockChain, hb] at h
  | none =>
    cases hp : w.protocolManager with
    | error e => simp [NewFromBlockChain, hb, hp] at h
    | ok pm =>
      simp only [NewFromBlockChain, hb, hp, Option.some.injEq] at h
      subst h
      exact ⟨rfl, rfl, rfl, rfl, rfl⟩

/-- Claim C19 as written fails on a service that was never started: on the
service `New` builds from the default configuration, `Stop` closes the bloom
indexer, stops the chain state, and panics in the sync manager's `Stop`; it
does not return nil and reaches neither the store nor the shutdown channel. -/
theorem C19_counterexample :
    ((New freshWorld testContext DefaultConfig).2.1.map fun s => (Stop s).2) =
      some ([Event.bloomIndexerClose, Event.blockchainStop, Event.protocolManagerStop],
        Outcome.panicked "runtime error: invalid memory address or nil pointer dereference") := by
  decide

/-- Claim C19, amended: every call to `Stop` on a service that has been
started and that no `Stop` has touched performs the teardown in exactly the
spec's order (cancel the migration task when a cancel function is held,
close the bloom indexer, stop the chain state, stop the sync manager, stop
the light server if and only if one is attached, stop the pool, stop the
miner, stop the event bus, close the store, close the shutdown channel) and
then returns nil; the store close and the channel close are its last two
effects. On a service never started `Stop` panics in the sync manager's
`Stop`, after the cancel, the indexer close and the chain stop. On a service
whose bloom indexer is closed already `Stop` blocks and touches neither store
nor channel. -/
theorem C19_Stop_order (s : aaechain) :
    (s.syncStarted = true → s.indexerClosed = false → s.upgradeCancelled = false →
        s.shutdownChan = Chan.opened →
        (Stop s).2 = (specTeardown s.stopDbUpgrade s.lesServer, Outcome.returned none) ∧
        (∃ pre, (Stop s).2.1 = pre ++ [Event.chainDbClose, Event.closeShutdownChan]) ∧
        (Event.stopDbUpgrade ∈ (Stop s).2.1 ↔ s.stopDbUpgrade = true) ∧
        (Event.lesServerStop ∈ (Stop s).2.1 ↔ s.lesServer = true) ∧
        (Stop s).1.shutdownChan = Chan.closed) ∧
      (s.syncStarted = false → s.indexerClosed = false → s.upgradeCancelled = false →
        (Stop s).2 =
          ((if s.stopDbUpgrade then [Event.stopDbUpgrade] else []) ++
            [Event.bloomIndexerClose, Event.blockchainStop, Event.protocolManagerStop],
            Outcome.panicked "runtime error: invalid memory address or nil pointer dereference")) ∧
      (s.indexerClosed = true →
        (∃ c, (Stop s).2.2 = Outcome.blocked c) ∧ Event.chainDbClose ∉ (Stop s).2.1 ∧
        Event.closeShutdownChan ∉ (Stop s).2.1) := by
  refine ⟨?_, ?_, ?_⟩
  · intro h1 h2 h3 h4
    obtain ⟨e, hc, _⟩ := Stop_of_running s h1 h2 h3 h4
    rw [e]
    refine ⟨rfl, ?_, ?_, ?_, hc⟩
    · refine ⟨(specTeardown s.stopDbUpgrade s.lesServer).dropLast.dropLast, ?_⟩
      cases s.stopDbUpgrade <;> cases s.lesServer <;> rfl
    · cases s.stopDbUpgrade <;> cases s.lesServer <;> simp [specTeardown]
    · cases s.stopDbUpgrade <;> cases s.lesServer <;> simp [specTeardown]
  · intro h1 h2 h3
    exact (Stop_of_unstarted s h1 h2 h3).1
  · intro h
    obtain ⟨h1, h2, h3, _⟩ := Stop_of_indexerClosed s h
    exact ⟨h1, h2, h3⟩

/-- Witness for C19: the default service after `Start` (light server
attached, no cancel function held) is torn down in nine steps ending in the
two closes; a second `Stop` on it blocks. -/
theorem C19_Stop_order_witness :
    (Stop startedService).2 =
        ([Event.bloomIndexerClose, Event.blockchainStop, Event.protocolManagerStop,
          Event.lesServerStop, Event.txPoolStop, Event.minerStop, Event.eventMuxStop,
          Event.chainDbClose, Event.closeShutdownChan], Outcome.returned none) ∧
      ∃ c, (Stop (Stop startedService).1).2.2 = Outcome.blocked c :=
  ⟨((C19_Stop_order startedService).1 rfl rfl rfl rfl).1,
    ((C19_Stop_order (Stop startedService).1).2.2 rfl).1⟩

/-- Claim C20 as written fails on its first sentence: on the service `New`
builds from the default configuration, `Stop` called at once panics, in the
sync manager's `Stop`, and has closed neither the store nor the shutdown
channel. -/
theorem C20_counterexample :
    ((New freshWorld testContext DefaultConfig).2.1.map fun s =>
        ((Stop s).2.2, List.count Event.chainDbClose (Stop s).2.1,
          List.count Event.closeShutdownChan (Stop s).2.1)) =
      some (Outcome.panicked "runtime error: invalid memory address or nil pointer dereference", 0, 0) := by
  decide

/-- Claim C20, amended: on every service returned by `New` (no light server
is attached to it), `Stop` called at once, without `Start`, panics in the
sync manager's `Stop` and closes neither the store nor the shutdown channel;
after a successful `Start`, `Stop` returns nil, closes the store exactly once
and closes the shutdown channel exactly once. Over any sequence of lifecycle
calls on that service the store and the shutdown channel are each closed at
most once. -/
theorem C20_Stop_after_New (w : World) (ctx : ServiceContext) (config : Config)
    (s : aaechain) (h : (New w ctx config).2.1 = some s) :
    s.lesServer = false ∧
      (Stop s).2.2 = Outcome.panicked "runtime error: invalid memory address or nil pointer dereference" ∧
      List.count Event.chainDbClose (Stop s).2.1 = 0 ∧
      List.count Event.closeShutdownChan (Stop s).2.1 = 0 ∧
      (∀ srvr, (Start s srvr).2.2 = none →
        (Stop (Start s srvr).1).2.2 = Outcome.returned none ∧
        List.count Event.chainDbClose (Stop (Start s srvr).1).2.1 = 1 ∧
        List.count Event.closeShutdownChan (Stop (Start s srvr).1).2.1 = 1) ∧
      (∀ calls : List Call,
        List.count Event.chainDbClose (run s calls).2 ≤ 1 ∧
        List.count Event.closeShutdownChan (run s calls).2 ≤ 1) := by
  obtain ⟨chainDb, g, engine, ev5, hn⟩ := New_service_from w ctx config s h
  rw [hn] at h
  obtain ⟨f1, f2, f3, f4, f5⟩ := NewFromBlockChain_flags _ _ _ _ _ _ _ s h
  have hu := (Stop_of_unstarted s f1 f2 f3).1
  refine ⟨f5, ?_, ?_, ?_, ?_, ?_⟩
  · rw [hu]
  · rw [hu]
    cases s.stopDbUpgrade <;> simp
  · rw [hu]
    cases s.stopDbUpgrade <;> simp
  · intro srvr hs
    obtain ⟨g1, g2, g3, g4, _, _⟩ := Start_flags s srvr hs
    obtain ⟨e, _, _⟩ := Stop_of_running (Start s srvr).1 g1 (g2.trans f2) (g3.trans f3)
      (g4.trans f4)
    rw [e]
    exact ⟨rfl, (specTeardown_counts _ _).1, (specTeardown_counts _ _).2⟩
  · intro calls
    have hb := run_budget calls s
    rw [f2] at hb
    simpa using hb

/-- Witness for C20: the service built from the default configuration panics
on an immediate `Stop`, stops cleanly after `Start`, and closes the store
once over `Start, Stop, Stop, Start, Stop`. -/
theorem C20_Stop_after_New_witness :
    ∃ s, (New freshWorld testContext DefaultConfig).2.1 = some s ∧
      (Stop s).2.2 = Outcome.panicked "runtime error: invalid memory address or nil pointer dereference" ∧
      (Stop (Start s server25).1).2.2 = Outcome.returned none ∧
      List.count Event.chainDbClose (run s [Call.Start server25, Call.Stop, Call.Stop,
        Call.Start server25, Call.Stop]).2 ≤ 1 :=
  ⟨_, rfl, (C20_Stop_after_New freshWorld testContext DefaultConfig _ rfl).2.1,
    ((C20_Stop_after_New freshWorld testContext DefaultConfig _ rfl).2.2.2.2.1 server25
      (by decide)).1,
    ((C20_Stop_after_New freshWorld testContext DefaultConfig _ rfl).2.2.2.2.2
      [Call.Start server25, Call.Stop, Call.Stop, Call.Start server25, Call.Stop]).1⟩

/-! ## Block lookups of the two backends -/

/-- The error of the full backend's `HeaderByNumber` is nil whenever it returns. -/
theorem HeaderByNumber_error (b : aaeApiBackend) (blockNr : BlockNumber)
    (r : Option Header × Option String) (h : b.HeaderByNumber blockNr = Ret.ok r) :
    r.2 = none := by
  unfold aaeApiBackend.HeaderByNumber at h
  by_cases hp : blockNr = PendingBlockNumber
  · rw [if_pos hp] at h
    cases hb : Block.Header b.PendingBlock with
    | ok v => rw [hb] at h; cases h; rfl
    | panic m => rw [hb] at h; cases h
  · rw [if_neg hp] at h
    by_cases hl : blockNr = LatestBlockNumber
    · rw [if_pos hl] at h
      cases hb : Block.Header b.blockchain.CurrentBlock with
      | ok v => rw [hb] at h; cases h; rfl
      | panic m => rw [hb] at h; cases h
    · rw [if_neg hl] at h
      cases h
      rfl

/-- The full backend's `HeaderByNumber` on an explicit number. -/
theorem HeaderByNumber_explicit (b : aaeApiBackend) (blockNr : BlockNumber)
    (hp : blockNr ≠ PendingBlockNumber) (hl : blockNr ≠ LatestBlockNumber) :
    b.HeaderByNumber blockNr =
      Ret.ok (b.blockchain.GetHeaderByNumber (toUint64 blockNr), none) := by
  simp [aaeApiBackend.HeaderByNumber, hp, hl]

/-- The light backend's `HeaderByNumber` on an explicit number. -/
theorem Les_HeaderByNumber_explicit (l : LesApiBackend) (blockNr : BlockNumber)
    (hp : blockNr ≠ PendingBlockNumber) (hl : blockNr ≠ LatestBlockNumber) :
    l.HeaderByNumber blockNr =
      ([LesEvent.getHeaderByNumberOdr (toUint64 blockNr)],
        l.blockchain.GetHeaderByNumberOdr (toUint64 blockNr)) := by
  simp [LesApiBackend.HeaderByNumber, hp, hl]

/-- The light backend's `HeaderByNumber` on the pending and latest tags. -/
theorem Les_HeaderByNumber_tag (l : LesApiBackend) (blockNr : BlockNumber)
    (h : blockNr = LatestBlockNumber ∨ blockNr = PendingBlockNumber) :
    l.HeaderByNumber blockNr = ([LesEvent.currentHeader], l.blockchain.CurrentHeader, none) := by
  simp [LesApiBackend.HeaderByNumber, h]

/-- Claim C21 as written fails when no miner is running: the full backend
asks the miner for its pending block whether or not it is mining. On a
backend whose miner is idle and holds block 8 while the chain's current block
is block 7, the pending tag gives block 8 and its header, the latest tag
block 7 and its header. -/
theorem C21_counterexample :
    IsMining idleBackend.aae = false ∧
      idleBackend.HeaderByNumber PendingBlockNumber = Ret.ok (some header8, none) ∧
      idleBackend.HeaderByNumber LatestBlockNumber = Ret.ok (some header7, none) ∧
      idleBackend.BlockByNumber PendingBlockNumber =
        Ret.ok (some { header := header8, body := 80 }, none) ∧
      idleBackend.BlockByNumber LatestBlockNumber =
        Ret.ok (some { header := header7, body := 70 }, none) := by
  decide

/-- Claim C21, amended: on the full backend, whether or not a miner is
running, `BlockByNumber` with the pending tag returns the miner's pending
block with a nil error and never panics, and `HeaderByNumber` with the
pending tag returns that block's header with a nil error (it panics only on
a nil pending block). The results equal those of the latest tag exactly when
the miner's pending block is the chain's current block (for the headers:
when the two blocks have the same header). -/
theorem C21_pending_from_miner (b : aaeApiBackend) :
    b.BlockByNumber PendingBlockNumber = Ret.ok (b.PendingBlock, none) ∧
      (∀ block, b.PendingBlock = some block →
        b.HeaderByNumber PendingBlockNumber = Ret.ok (some block.header, none)) ∧
      (b.BlockByNumber PendingBlockNumber = b.BlockByNumber LatestBlockNumber ↔
        b.PendingBlock = b.blockchain.CurrentBlock) ∧
      (∀ block current, b.PendingBlock = some block → b.blockchain.CurrentBlock = some current →
        (b.HeaderByNumber PendingBlockNumber = b.HeaderByNumber LatestBlockNumber ↔
          block.header = current.header)) := by
  have hne : LatestBlockNumber ≠ PendingBlockNumber := by decide
  refine ⟨by simp [aaeApiBackend.BlockByNumber], ?_, ?_, ?_⟩
  · intro block h
    simp [aaeApiBackend.HeaderByNumber, h, Block.Header]
  · simp [aaeApiBackend.BlockByNumber, hne]
  · intro block current h1 h2
    simp [aaeApiBackend.HeaderByNumber, hne, h1, h2, Block.Header]

/-- Witness for C21: the idle backend hands out the miner's block 8. -/
theorem C21_pending_from_miner_witness :
    idleBackend.HeaderByNumber PendingBlockNumber = Ret.ok (some header8, none) ∧
      idleBackend.BlockByNumber PendingBlockNumber ≠ idleBackend.BlockByNumber LatestBlockNumber :=
  ⟨(C21_pending_from_miner idleBackend).2.1 { header := header8, body := 80 } rfl,
    fun h => absurd ((C21_pending_from_miner idleBackend).2.2.1.mp h) (by decide)⟩

/-- Claim C22: on the light backend, for every chain state, `HeaderByNumber`,
`BlockByNumber` and `StateAndHeaderByNumber` give on the pending tag exactly
what they give on the latest tag; the header is the chain's current header
with a nil error, and no header is retrieved by number. -/
theorem C22_light_pending_is_latest (l : LesApiBackend) :
    l.HeaderByNumber PendingBlockNumber = l.HeaderByNumber LatestBlockNumber ∧
      l.HeaderByNumber PendingBlockNumber =
        ([LesEvent.currentHeader], l.blockchain.CurrentHeader, none) ∧
      l.BlockByNumber PendingBlockNumber = l.BlockByNumber LatestBlockNumber ∧
      l.StateAndHeaderByNumber PendingBlockNumber =
        l.StateAndHeaderByNumber LatestBlockNumber ∧
      (∀ n, LesEvent.getHeaderByNumberOdr n ∉ (l.HeaderByNumber PendingBlockNumber).1 ∧
        LesEvent.getHeaderByNumberOdr n ∉ (l.BlockByNumber PendingBlockNumber).1 ∧
        LesEvent.getHeaderByNumberOdr n ∉ (l.StateAndHeaderByNumber PendingBlockNumber).1) := by
  have hp := Les_HeaderByNumber_tag l PendingBlockNumber (Or.inr rfl)
  have hl := Les_HeaderByNumber_tag l LatestBlockNumber (Or.inl rfl)
  refine ⟨hp.trans hl.symm, hp, ?_, ?_, ?_⟩
  · unfold LesApiBackend.BlockByNumber
    rw [hp, hl]
  · unfold LesApiBackend.StateAndHeaderByNumber
    rw [hp, hl]
  · intro n
    unfold LesApiBackend.BlockByNumber LesApiBackend.StateAndHeaderByNumber
    rw [hp]
    cases l.blockchain.CurrentHeader <;> simp [LesApiBackend.GetBlock]

/-- Claim C23 as written fails on the light backend: block 9 is unknown to
the light chain, whose retrieval by number answers a never-seen number with
the error "No trusted canonical hash trie"; all three methods return absent
results together with that error, not with a nil error. -/
theorem C23_counterexample :
    (lightBackend7.blockchain.GetHeaderByNumberOdr 9).1 = none ∧
      lightBackend7.HeaderByNumber 9 =
        ([LesEvent.getHeaderByNumberOdr 9], none, some "No trusted canonical hash trie") ∧
      lightBackend7.BlockByNumber 9 =
        ([LesEvent.getHeaderByNumberOdr 9], none, some "No trusted canonical hash trie") ∧
      lightBackend7.StateAndHeaderByNumber 9 =
        ([LesEvent.getHeaderByNumberOdr 9], none, none,
          some "No trusted canonical hash trie") := by
  decide

/-- Claim C23, amended: for every explicit block number (neither the pending
nor the latest tag) at which the chain holds no header, the full backend's
`HeaderByNumber` and `StateAndHeaderByNumber` return nil results with a nil
error, and so does `BlockByNumber` when the chain holds no block there; the
full backend's `HeaderByNumber` and `BlockByNumber` return a nil error on
every input. On the light backend a nil header from the retrieval by number
is handed on by all three methods as nil results together with the
retrieval's error, whatever it is, and that retrieval is the only call made:
no block and no state is fetched. -/
theorem C23_absent_lookup (b : aaeApiBackend) (l : LesApiBackend) (blockNr : BlockNumber)
    (hp : blockNr ≠ PendingBlockNumber) (hl : blockNr ≠ LatestBlockNumber) :
    (b.blockchain.GetHeaderByNumber (toUint64 blockNr) = none →
        b.HeaderByNumber blockNr = Ret.ok (none, none) ∧
        b.StateAndHeaderByNumber blockNr = Ret.ok (none, none, none)) ∧
      (b.blockchain.GetBlockByNumber (toUint64 blockNr) = none →
        b.BlockByNumber blockNr = Ret.ok (none, none)) ∧
      (∀ n r, b.HeaderByNumber n = Ret.ok r → r.2 = none) ∧
      (∀ n r, b.BlockByNumber n = Ret.ok r → r.2 = none) ∧
      (∀ err, l.blockchain.GetHeaderByNumberOdr (toUint64 blockNr) = (none, err) →
        l.HeaderByNumber blockNr =
          ([LesEvent.getHeaderByNumberOdr (toUint64 blockNr)], none, err) ∧
        l.BlockByNumber blockNr =
          ([LesEvent.getHeaderByNumberOdr (toUint64 blockNr)], none, err) ∧
        l.StateAndHeaderByNumber blockNr =
          ([LesEvent.getHeaderByNumberOdr (toUint64 blockNr)], none, none, err)) := by
  refine ⟨?_, ?_, fun n r h => HeaderByNumber_error b n r h, ?_, ?_⟩
  · intro h
    have hh := HeaderByNumber_explicit b blockNr hp hl
    rw [h] at hh
    refine ⟨hh, ?_⟩
    unfold aaeApiBackend.StateAndHeaderByNumber
    rw [if_neg hp, hh]
  · intro h
    simp [aaeApiBackend.BlockByNumber, hp, hl, h]
  · intro n r h
    unfold aaeApiBackend.BlockByNumber at h
    split_ifs at h <;> cases h <;> rfl
  · intro err h
    have hh := Les_HeaderByNumber_explicit l blockNr hp hl
    rw [h] at hh
    refine ⟨hh, ?_, ?_⟩
    · unfold LesApiBackend.BlockByNumber
      rw [hh]
    · unfold LesApiBackend.StateAndHeaderByNumber
      rw [hh]

/-- Witness for C23: block 9, unknown to both chains; the full backend
answers nil with a nil error, the light backend nil with its chain's error. -/
theorem C23_absent_lookup_witness :
    idleBackend.StateAndHeaderByNumber 9 = Ret.ok (none, none, none) ∧
      idleBackend.BlockByNumber 9 = Ret.ok (none, none) ∧
      lightBackend7.BlockByNumber 9 =
        ([LesEvent.getHeaderByNumberOdr 9], none, some "No trusted canonical hash trie") :=
  ⟨((C23_absent_lookup idleBackend lightBackend7 9 (by decide) (by decide)).1 rfl).2,
    (C23_absent_lookup idleBackend lightBackend7 9 (by decide) (by decide)).2.1 rfl,
    ((C23_absent_lookup idleBackend lightBackend7 9 (by decide) (by decide)).2.2.2.2
      (some "No trusted canonical hash trie") rfl).2.1⟩

/-! ## makeExtraData and the resolver, once more -/

/-- Claim C24: for every byte string `extra` the result of `makeExtraData` is
at most `params.MaximumExtraDataSize` long, also when the input is empty and
the default fingerprint is taken; a non-empty input within the limit is
returned as it is; and the default fingerprint is taken only for the empty
input: a non-empty input gives itself or nothing, the empty input gives the
fingerprint or nothing. -/
theorem C24_makeExtraData_bound (w : World) (extra : Bytes) :
    (makeExtraData w extra).2.length ≤ w.MaximumExtraDataSize ∧
      (extra ≠ [] → extra.length ≤ w.MaximumExtraDataSize → (makeExtraData w extra).2 = extra) ∧
      (extra ≠ [] → (makeExtraData w extra).2 = extra ∨ (makeExtraData w extra).2 = []) ∧
      (extra = [] →
        (makeExtraData w extra).2 = w.defaultExtra ∨ (makeExtraData w extra).2 = []) := by
  unfold makeExtraData
  refine ⟨?_, ?_, ?_, ?_⟩
  · simp only
    split_ifs <;> simp <;> omega
  · intro h0 h1
    have h2 : extra.length ≠ 0 := by simpa using h0
    have h3 : ¬ extra.length > w.MaximumExtraDataSize := by omega
    simp only [h2, if_false]
    rw [if_neg h3]
  · intro h0
    have h2 : extra.length ≠ 0 := by simpa using h0
    simp only [h2, if_false]
    split_ifs <;> simp
  · intro h0
    subst h0
    simp only [List.length_nil, if_true]
    split_ifs <;> simp

/-- Witness for C24: three bytes are kept, the empty input gets the five-byte
fingerprint, both within the limit of 32. -/
theorem C24_makeExtraData_bound_witness :
    (makeExtraData freshWorld [1, 2, 3]).2 = [1, 2, 3] ∧
      (makeExtraData freshWorld []).2.length ≤ 32 :=
  ⟨(C24_makeExtraData_bound freshWorld [1, 2, 3]).2.1 (by decide) (by decide),
    (C24_makeExtraData_bound freshWorld []).1⟩

/-- Claim C25: with no etherbase configured and a first wallet without
accounts, the resolver fails with "aaeerbase must be explicitly specified"
and leaves the service, the unset etherbase field included, as it was,
whatever wallets follow the first in the list. -/
theorem C25_aaeerbase_first_wallet_only (s : aaechain) (w : Wallet) (ws : List Wallet)
    (hunset : s.aaeerbase = 0) (hw : s.accountManager.Wallets = w :: ws)
    (ha : w.Accounts = []) :
    (aaeerbase s).2.2 = (0, some "aaeerbase must be explicitly specified") ∧
      (aaeerbase s).1 = s ∧ (aaeerbase s).1.aaeerbase = 0 ∧ (aaeerbase s).2.1 = [] := by
  have h : aaeerbase s = (s, [], 0, some "aaeerbase must be explicitly specified") := by
    simp [aaeerbase, hunset, hw, ha]
  rw [h]
  exact ⟨rfl, rfl, hunset, rfl⟩

/-- Witness for C25: an empty first wallet in front of `walletA`, which holds
two accounts. -/
theorem C25_aaeerbase_first_wallet_only_witness :
    ethashServiceEmptyFirst.accountManager.Wallets = [walletEmpty, walletA] ∧
      walletA.Accounts ≠ [] ∧
      (aaeerbase ethashServiceEmptyFirst).2.2 =
        (0, some "aaeerbase must be explicitly specified") :=
  ⟨rfl, by decide,
    (C25_aaeerbase_first_wallet_only ethashServiceEmptyFirst walletEmpty [walletA] rfl rfl
      rfl).1⟩

end Aae
